import Mathlib

/-!
Shallow embedding of the playback-queue engine in `src/index.ts` (class
`Player`).  The engine state is the record `Player` below; every public or
private method of the class is translated into a state-passing Lean function
of the same name.

Modelling conventions:
* JS numbers that hold media times are modelled as `ℚ`; a duration that is
  still `NaN` (metadata not yet loaded) is `none : Option ℚ`.
* The array index `currentPlayingPointer` is an `Int`, because the source
  transiently assigns `-1` to it (in `handleTrackEnd`) and compares it with
  signed arithmetic.  JS out-of-range / negative array reads yield
  `undefined`, modelled by `listGetI` returning `none`.
* `HTMLAudioElement`s are modelled by the `Audio` record (url, currentTime,
  duration, paused, volume).  The `AudioContext` / `MediaElementAudioSource`
  plumbing, `crossOrigin`, `preload`, DOM event-listener registration, the
  media-session integration and logging are external collaborators with no
  engine-visible state and are not modelled.
* Asynchronous `play()` calls can be rejected by the backend; the outcome of
  each attempted play is an explicit input (`PlayOutcome`).  A rejected play
  is a thrown `DOMException`, modelled as `Except PlayError Unit`.
* `Math.random()`-driven shuffling takes an arbitrary choice function
  `rand : Nat → Nat`; the Fisher–Yates index `Math.floor(Math.random()*(i+1))`
  is modelled as `rand i % (i + 1)`, which ranges over exactly `[0, i]`.
* Of the six listener channels only the play-state channel is inspected by
  any claim; the booleans pushed to play-state listeners are collected in a
  `List Bool` trace.  The other channels (queue, current-track, progress,
  shuffle, loop) receive defensive copies and have no feedback into engine
  state, so only the state effects of their notification paths are modelled
  (`fetchQueue` inside `notifyQueueChange` can rebuild an empty `order`).
-/

set_option autoImplicit false
set_option linter.unreachableTactic false
set_option linter.unusedTactic false

/-- JS array read `l[i]` for a possibly negative index: `undefined` (`none`)
when out of range. -/
def listGetI {α : Type} (l : List α) (i : Int) : Option α :=
  if i < 0 then none else l[i.toNat]?

/-- Optional track metadata (artwork is UI-facing and never read by the
engine; it is omitted). -/
structure TrackMetadata where
  title : Option String := none
  artist : Option String := none
  album : Option String := none
deriving DecidableEq, Repr

/-- An entry of the play queue (`QueueItem` in `types.ts`). -/
structure QueueItem where
  url : String
  metadata : Option TrackMetadata := none
deriving DecidableEq, Repr

/-- A playable handle (`HTMLAudioElement`): the state the engine reads or
writes.  `duration = none` models `NaN` (metadata not loaded). -/
structure Audio where
  url : String
  currentTime : ℚ
  duration : Option ℚ
  paused : Bool
  volume : ℚ
deriving DecidableEq, Repr

/-- A freshly constructed `new Audio(url)`. -/
def newAudio (url : String) : Audio :=
  { url := url, currentTime := 0, duration := none, paused := true, volume := 1 }

/-- The loop flag: `'off' | 'entire_queue' | 'single_track'`. -/
inductive LoopMode where
  | off
  | entire_queue
  | single_track
deriving DecidableEq, Repr

/-- Backend response to one `HTMLMediaElement.play()` call.  `blocked` is a
`DOMException` named `NotAllowedError` (autoplay policy), `unsupported` is
`NotSupportedError`. -/
inductive PlayOutcome where
  | success
  | blocked
  | unsupported
deriving DecidableEq, Repr

/-- The error that a rejected play propagates. -/
inductive PlayError where
  | blocked
  | unsupported
deriving DecidableEq, Repr

/-- The mutable fields of the `Player` class (listener sets and the progress
timer carry no engine-visible state and are not modelled). -/
structure Player where
  queue : List QueueItem
  isPlaying : Bool
  currentAudio : Option Audio
  nextAudio : Option Audio
  currentPlayingPointer : Int
  order : List Nat
  shuffle : Bool
  loop : LoopMode
deriving DecidableEq, Repr

/-- The constructor's initial state. -/
def initialPlayer : Player :=
  { queue := [], isPlaying := false, currentAudio := none, nextAudio := none,
    currentPlayingPointer := 0, order := [], shuffle := false, loop := .off }

/-- `restoreOriginalOrder`: rebuild `order` as the identity permutation and,
only when there is active playback, relocate the pointer to the restored
index of the entry previously at `order[currentPlayingPointer]`
(`indexOf` returning `-1` falls back to `0`). -/
def Player.restoreOriginalOrder (s : Player) : Player :=
  let currentPlaying := listGetI s.order s.currentPlayingPointer
  let order := List.range s.queue.length
  let hasActivePlayback : Bool :=
    match s.currentAudio with
    | some a => decide (0 < a.currentTime) || !a.paused
    | none => false
  let pointer : Int :=
    if hasActivePlayback then
      match currentPlaying with
      | some cp => if cp ∈ order then (order.indexOf cp : Int) else 0
      | none => 0
    else s.currentPlayingPointer
  { s with order := order, currentPlayingPointer := pointer }

/-- State effect of `fetchQueue`: an empty `order` is rebuilt first; the
returned list is the queue mapped through `order`, skipping missing
entries. -/
def Player.fetchQueue (s : Player) : Player × List QueueItem :=
  let s := if s.order.length = 0 then s.restoreOriginalOrder else s
  (s, s.order.filterMap (fun i => s.queue[i]?))

/-- State effect of `notifyQueueChange` (the emitted deep copy goes to an
unmodelled channel). -/
def Player.notifyQueueChange (s : Player) : Player :=
  (s.fetchQueue).1

/-- `replaceQueue`: install the new queue, reset shuffle and loop, drop the
current audio, rebuild `order` as the identity permutation.  The
pointer field is not touched. -/
def Player.replaceQueue (s : Player) (queue : List QueueItem) : Player :=
  let s := { s with queue := queue, shuffle := false, loop := .off,
                    currentAudio := none, order := List.range queue.length }
  s.notifyQueueChange

/-- `appendTrack`: push the track and push `order.length` onto `order`
(appends always go positionally last, even in shuffle mode). -/
def Player.appendTrack (s : Player) (track : QueueItem) : Player :=
  let s := { s with queue := s.queue ++ [track], order := s.order ++ [s.order.length] }
  s.notifyQueueChange

/-- Swap two positions of a list; JS destructuring
`[a[i], a[j]] = [a[j], a[i]]` on valid indices. -/
def listSwap {α : Type} (l : List α) (i j : Nat) : List α :=
  match l[i]?, l[j]? with
  | some x, some y => (l.set i y).set j x
  | _, _ => l

/-- The Fisher–Yates loop `for (let i = len-1; i > 0; i--)`, counting `i`
down; `rand i % (i+1)` stands for `Math.floor(Math.random()*(i+1))`. -/
def fisherYatesAux (rand : Nat → Nat) : Nat → List Nat → List Nat
  | 0, l => l
  | i + 1, l => fisherYatesAux rand i (listSwap l (i + 1) (rand (i + 1) % (i + 2)))

/-- Fisher–Yates shuffle of a list of indices. -/
def fisherYates (l : List Nat) (rand : Nat → Nat) : List Nat :=
  fisherYatesAux rand (l.length - 1) l

/-- `shuffleQueue`: keep `order[0..=currentPlayingPointer]` in place when
playback is active (playing, or pointer past the first item, or progress
nonzero), Fisher–Yates-shuffle the rest. -/
def Player.shuffleQueue (s : Player) (rand : Nat → Nat) : Player :=
  let shouldKeepPrevious : Bool :=
    s.isPlaying || decide (0 < s.currentPlayingPointer) ||
      (match s.currentAudio with
       | some a => decide (a.currentTime ≠ 0)
       | none => false)
  let startShuffleFrom : Int :=
    if shouldKeepPrevious then s.currentPlayingPointer + 1 else 0
  let keepRemainRange :=
    (List.range s.queue.length).filter (fun (i : Nat) => decide ((i : Int) < startShuffleFrom))
  let shuffleRange :=
    (List.range s.queue.length).filter (fun (i : Nat) => !decide ((i : Int) < startShuffleFrom))
  { s with order := keepRemainRange ++ fisherYates shuffleRange rand }

/-- `toggleShuffle` (listener notification channels carry no state). -/
def Player.toggleShuffle (s : Player) (shuffle : Option Bool) (rand : Nat → Nat) : Player :=
  let newState := shuffle.getD (!s.shuffle)
  if s.shuffle = newState then s
  else
    let s := { s with shuffle := newState }
    let s := if newState then s.shuffleQueue rand else s.restoreOriginalOrder
    s.notifyQueueChange

/-- `toggleLoop`: explicit mode, or cycle off → entire_queue → single_track → off. -/
def Player.toggleLoop (s : Player) (mode : Option LoopMode) : Player :=
  let newMode :=
    match mode with
    | some m => m
    | none =>
      match s.loop with
      | .off => .entire_queue
      | .entire_queue => .single_track
      | .single_track => .off
  if newMode = s.loop then s else { s with loop := newMode }

/-- `getShuffleState`. -/
def Player.getShuffleState (s : Player) : Bool := s.shuffle

/-- `getLoopMode`. -/
def Player.getLoopMode (s : Player) : LoopMode := s.loop

/-- `getPlayingState`. -/
def Player.getPlayingState (s : Player) : Bool := s.isPlaying

/-- `getActualQueueIndex`: rebuilds an empty `order`, then
`order[orderIndex] ?? orderIndex`. -/
def Player.getActualQueueIndex (s : Player) (orderIndex : Int) : Player × Int :=
  let s := if s.order.length = 0 then s.restoreOriginalOrder else s
  (s, match listGetI s.order orderIndex with
      | some v => (v : Int)
      | none => orderIndex)

/-- `getCurrentTrack`. -/
def Player.getCurrentTrack (s : Player) : Player × Option QueueItem :=
  let r := s.getActualQueueIndex s.currentPlayingPointer
  (r.1, listGetI r.1.queue r.2)

/-- State effect of `reportMetadata`: only its `getCurrentTrack` call touches
engine state (media-session handlers and the current-track channel are
external). -/
def Player.reportMetadata (s : Player) : Player :=
  (s.getCurrentTrack).1

/-- The preload trigger read from a handle: `timeRemaining < 20` or
`currentTime > duration / 2`; both comparisons are false while the duration
is still `NaN`. -/
def shouldSchedule (a : Audio) : Bool :=
  match a.duration with
  | some d => decide (d - a.currentTime < 20) || decide (d / 2 < a.currentTime)
  | none => false

/-- `scheduleNext`: preload the loop-aware successor.  No-op when a next
handle exists, when loop is single_track, or when there is no successor.
The `canplaythrough` silent-priming callback only touches the preloaded
element itself and is external. -/
def Player.scheduleNext (s : Player) : Player :=
  if s.nextAudio.isSome then s
  else if s.loop = .single_track then s
  else
    let nextPointer : Int := s.currentPlayingPointer + 1
    if (s.queue.length : Int) ≤ nextPointer then
      if s.loop = .entire_queue ∧ 0 < s.queue.length then
        let r := s.getActualQueueIndex 0
        match listGetI r.1.queue r.2 with
        | some nextTrack => { r.1 with nextAudio := some (newAudio nextTrack.url) }
        | none => r.1
      else s
    else
      let r := s.getActualQueueIndex nextPointer
      match listGetI r.1.queue r.2 with
      | some nextTrack => { r.1 with nextAudio := some (newAudio nextTrack.url) }
      | none => r.1

/-- The guarded `await this.currentAudio?.play()` of `startPlay` together
with its catch block: on `NotAllowedError` the playing flag is reset and
play-state listeners are notified with `false`, then the error is
re-thrown; on `NotSupportedError` it is only re-thrown. -/
def Player.tryPlayCurrent (s : Player) (o : PlayOutcome) :
    Player × List Bool × Except PlayError Unit :=
  match s.currentAudio with
  | none => (s, [], .ok ())
  | some a =>
    match o with
    | .success => ({ s with currentAudio := some { a with paused := false } }, [], .ok ())
    | .blocked => ({ s with isPlaying := false }, [false], .error .blocked)
    | .unsupported => (s, [], .error .unsupported)

/-- `startPlay`: resume a paused handle (re-checking the preload trigger) or
create a handle for the current track and play it.  The resume-path
`play()` is outside the try/catch, so its rejection propagates without
resetting the playing flag. -/
def Player.startPlay (s : Player) (o : PlayOutcome) :
    Player × List Bool × Except PlayError Unit :=
  let r := s.getCurrentTrack
  let s := r.1
  let currentTrack := r.2
  match s.currentAudio with
  | some a =>
    if a.paused then
      match o with
      | .success =>
        let a := { a with paused := false }
        let s := { s with currentAudio := some a }
        let s := if s.nextAudio = none ∧ shouldSchedule a then s.scheduleNext else s
        (s, [], .ok ())
      | .blocked => (s, [], .error .blocked)
      | .unsupported => (s, [], .error .unsupported)
    else
      s.tryPlayCurrent o
  | none =>
    match currentTrack with
    | some track => Player.tryPlayCurrent { s with currentAudio := some (newAudio track.url) } o
    | none => (s, [], .ok ())

/-- `pausePlay`: pause the current and any preloaded handle. -/
def Player.pausePlay (s : Player) : Player :=
  let s :=
    match s.currentAudio with
    | some a => { s with currentAudio := some { a with paused := true } }
    | none => s
  match s.nextAudio with
  | some na => { s with nextAudio := some { na with paused := true } }
  | none => s

/-- `togglePlaying`: flips (or sets) the playing flag, notifies play-state
listeners, reports metadata, then starts or pauses playback.  The
`await this.startPlay()` is wrapped in a try/catch that only logs, so a
play failure never rejects the promise returned by `togglePlaying`. -/
def Player.togglePlaying (s : Player) (playing : Option Bool) (o : PlayOutcome) :
    Player × List Bool × Except PlayError Unit :=
  let newState := playing.getD (!s.isPlaying)
  if s.isPlaying = newState then (s, [], .ok ())
  else
    let s := { s with isPlaying := newState }
    let s := s.reportMetadata
    if newState then
      let r := s.startPlay o
      (r.1, newState :: r.2.1, .ok ())
    else
      (s.pausePlay, [newState], .ok ())

/-- `switchToTrack`: validated track change without autoplay; tears down both
handles, moves the pointer, builds a fresh paused handle. -/
def Player.switchToTrack (s : Player) (trackIndex : Int) : Player :=
  if trackIndex < 0 ∨ (s.queue.length : Int) ≤ trackIndex then s
  else
    let s := { s with currentAudio := none, nextAudio := none,
                      currentPlayingPointer := trackIndex }
    let r := s.getCurrentTrack
    match r.2 with
    | none => r.1
    | some track =>
      let s := { r.1 with currentAudio := some (newAudio track.url) }
      let s := s.reportMetadata
      s.notifyQueueChange

/-- `skipToNext`: only moves forward when a next queue slot exists; resumes
play when it was playing (that `startPlay` rejection propagates). -/
def Player.skipToNext (s : Player) (o : PlayOutcome) :
    Player × List Bool × Except PlayError Unit :=
  if s.currentPlayingPointer + 1 < (s.queue.length : Int) then
    let wasPlaying := s.isPlaying
    let s := s.switchToTrack (s.currentPlayingPointer + 1)
    if wasPlaying then s.startPlay o else (s, [], .ok ())
  else
    (s, [], .ok ())

/-- `skipToPrevious`: before 5 seconds of progress and past the first slot,
go back one track; otherwise restart the current handle (an unguarded
`play()` whose rejection propagates). -/
def Player.skipToPrevious (s : Player) (o : PlayOutcome) :
    Player × List Bool × Except PlayError Unit :=
  let wasPlaying := s.isPlaying
  let curTime : ℚ :=
    match s.currentAudio with
    | some a => a.currentTime
    | none => 0
  if curTime < 5 ∧ 0 < s.currentPlayingPointer then
    let s := s.switchToTrack (s.currentPlayingPointer - 1)
    if wasPlaying then s.startPlay o else (s, [], .ok ())
  else
    match s.currentAudio with
    | some a =>
      let a := { a with currentTime := 0 }
      let s := { s with currentAudio := some a }
      if wasPlaying ∧ a.paused then
        match o with
        | .success => ({ s with currentAudio := some { a with paused := false } }, [], .ok ())
        | .blocked => (s, [], .error .blocked)
        | .unsupported => (s, [], .error .unsupported)
      else (s, [], .ok ())
    | none => (s, [], .ok ())

/-- `updateNextTrackSchedule` (run after a successful seek): schedule the
next handle if the trigger window was entered, discard it if the window
was left. -/
def Player.updateNextTrackSchedule (s : Player) : Player :=
  match s.currentAudio with
  | none => s
  | some a =>
    match a.duration with
    | none => s
    | some d =>
      if d ≤ 0 then s
      else
        let shouldScheduleNext : Bool :=
          decide (d - a.currentTime < 20) || decide (d / 2 < a.currentTime)
        if shouldScheduleNext ∧ s.nextAudio = none then s.scheduleNext
        else if ¬shouldScheduleNext = true ∧ s.nextAudio.isSome then
          { s with nextAudio := none }
        else s

/-- `seekTo`: fails (`false`, no state change) without a handle or a valid
duration; otherwise clamps to `[0, duration]`, applies the seek and
re-evaluates the preload window. -/
def Player.seekTo (s : Player) (time : ℚ) : Player × Bool :=
  match s.currentAudio with
  | none => (s, false)
  | some a =>
    match a.duration with
    | none => (s, false)
    | some d =>
      if d ≤ 0 then (s, false)
      else
        let clampedTime := max 0 (min time d)
        let s := { s with currentAudio := some { a with currentTime := clampedTime } }
        (s.updateNextTrackSchedule, true)

/-- `seekToPercentage`: clamp the percentage to `[0, 100]` and delegate to
`seekTo`. -/
def Player.seekToPercentage (s : Player) (percentage : ℚ) : Player × Bool :=
  match s.currentAudio with
  | none => (s, false)
  | some a =>
    match a.duration with
    | none => (s, false)
    | some d =>
      if d ≤ 0 then (s, false)
      else
        let clampedPercentage := max 0 (min percentage 100)
        s.seekTo (clampedPercentage / 100 * d)

/-- `seekRelative`: delegate to `seekTo` from the current time. -/
def Player.seekRelative (s : Player) (seconds : ℚ) : Player × Bool :=
  match s.currentAudio with
  | none => (s, false)
  | some a => s.seekTo (a.currentTime + seconds)

/-- `playNext`: cold-start fallback when nothing is preloaded (advance or
wrap the pointer, or stop), else promote the preloaded handle: silent
re-buffer (`o1`), pause the old handle, swap, advance the pointer with the
entire-queue wrap, play (`o2`) and on failure cold-start the following
slot (`o3`).  Errors of this internally-triggered path are contained. -/
def Player.playNext (s : Player) (o1 o2 o3 : PlayOutcome) : Player × List Bool :=
  match s.nextAudio with
  | none =>
    if s.currentPlayingPointer + 1 < (s.queue.length : Int) then
      let r := Player.startPlay { s with currentPlayingPointer := s.currentPlayingPointer + 1 } o1
      (r.1, r.2.1)
    else if s.loop = .entire_queue ∧ 0 < s.queue.length then
      let r := Player.startPlay { s with currentPlayingPointer := 0 } o1
      (r.1, r.2.1)
    else
      let r := s.togglePlaying (some false) o1
      (r.1, r.2.1)
  | some na =>
    let na :=
      match o1 with
      | .success => { na with currentTime := 0, volume := 1 }
      | _ => { na with volume := 0 }
    let s :=
      match s.currentAudio with
      | some a => { s with currentAudio := some { a with paused := true } }
      | none => s
    let s := { s with currentAudio := some na, nextAudio := none }
    let s :=
      if (s.queue.length : Int) ≤ s.currentPlayingPointer + 1 ∧ s.loop = .entire_queue then
        { s with currentPlayingPointer := 0 }
      else
        { s with currentPlayingPointer := s.currentPlayingPointer + 1 }
    let a := { na with currentTime := 0, volume := 1 }
    match o2 with
    | .success =>
      let s := { s with currentAudio := some { a with paused := false } }
      let s := s.reportMetadata
      (s.notifyQueueChange, [])
    | _ =>
      let s := { s with currentAudio := some a }
      if s.currentPlayingPointer + 1 < (s.queue.length : Int) then
        let r := Player.startPlay { s with currentPlayingPointer := s.currentPlayingPointer + 1 } o3
        (r.1, r.2.1)
      else (s, [])

/-- `handleTrackEnd`: single-track loop replays the same handle; at the end
of the queue either wrap (entire-queue loop, via `playNext` with the
pointer parked at `-1`) or stop; otherwise advance via `playNext`. -/
def Player.handleTrackEnd (s : Player) (o1 o2 o3 : PlayOutcome) : Player × List Bool :=
  if s.loop = .single_track then
    match s.currentAudio with
    | some a =>
      let a := { a with currentTime := 0 }
      let a :=
        match o1 with
        | .success => { a with paused := false }
        | _ => a
      ({ s with currentAudio := some a }, [])
    | none => (s, [])
  else if (s.queue.length : Int) ≤ s.currentPlayingPointer + 1 then
    if s.loop = .entire_queue then
      Player.playNext { s with currentPlayingPointer := -1 } o1 o2 o3
    else
      let r := s.togglePlaying (some false) o1
      (r.1, r.2.1)
  else
    s.playNext o1 o2 o3

/-- The backend `ended` event: fires only for an existing current handle,
which the media element leaves paused; then `handleTrackEnd` runs. -/
def Player.trackEnded (s : Player) (o1 o2 o3 : PlayOutcome) : Player × List Bool :=
  match s.currentAudio with
  | none => (s, [])
  | some a =>
    Player.handleTrackEnd { s with currentAudio := some { a with paused := true } } o1 o2 o3

/-- The backend `timeupdate` event: playback time has progressed to `t`; the
registered handler schedules the next track inside the trigger window. -/
def Player.onTimeUpdate (s : Player) (t : ℚ) : Player :=
  match s.currentAudio with
  | none => s
  | some a =>
    let a := { a with currentTime := t }
    let s := { s with currentAudio := some a }
    if s.nextAudio = none ∧ shouldSchedule a then s.scheduleNext else s

/-- The backend reports the current handle's duration (metadata loaded). -/
def Player.metadataLoaded (s : Player) (d : ℚ) : Player :=
  match s.currentAudio with
  | none => s
  | some a => { s with currentAudio := some { a with duration := some d } }

/-- One caller-visible operation or backend event, with the nondeterministic
backend inputs (play outcomes, shuffle randomness) made explicit. -/
inductive Op where
  | replaceQueue (items : List QueueItem)
  | appendTrack (item : QueueItem)
  | togglePlaying (playing : Option Bool) (o : PlayOutcome)
  | toggleShuffle (state : Option Bool) (rand : Nat → Nat)
  | toggleLoop (mode : Option LoopMode)
  | skipToNext (o : PlayOutcome)
  | skipToPrevious (o : PlayOutcome)
  | seekTo (t : ℚ)
  | seekToPercentage (p : ℚ)
  | seekRelative (dt : ℚ)
  | trackEnded (o1 o2 o3 : PlayOutcome)
  | timeUpdate (t : ℚ)
  | metadataLoaded (d : ℚ)

/-- The engine's transition function. -/
def Player.step (s : Player) (op : Op) : Player :=
  match op with
  | .replaceQueue items => s.replaceQueue items
  | .appendTrack item => s.appendTrack item
  | .togglePlaying playing o => (s.togglePlaying playing o).1
  | .toggleShuffle b rand => s.toggleShuffle b rand
  | .toggleLoop mode => s.toggleLoop mode
  | .skipToNext o => (s.skipToNext o).1
  | .skipToPrevious o => (s.skipToPrevious o).1
  | .seekTo t => (s.seekTo t).1
  | .seekToPercentage p => (s.seekToPercentage p).1
  | .seekRelative dt => (s.seekRelative dt).1
  | .trackEnded o1 o2 o3 => (s.trackEnded o1 o2 o3).1
  | .timeUpdate t => s.onTimeUpdate t
  | .metadataLoaded d => s.metadataLoaded d

/-- The state after running a sequence of operations from the initial
state. -/
def Player.run (ops : List Op) : Player :=
  ops.foldl Player.step initialPlayer

/-- States reachable by any sequence of public operations and backend
events. -/
inductive Player.Reach : Player → Prop where
  | init : Player.Reach initialPlayer
  | step {s : Player} (op : Op) : Player.Reach s → Player.Reach (s.step op)

/-- Safety side condition under which the pointer invariant survives an
operation: `replaceQueue` keeps the pointer, so it must either stay inside
the new queue or already be `0`. -/
def SafeOp (s : Player) : Op → Prop
  | .replaceQueue items =>
      s.currentPlayingPointer < (items.length : Int) ∨ s.currentPlayingPointer = 0
  | _ => True

/-- Reachability restricted by `SafeOp`. -/
inductive Player.ReachSafe : Player → Prop where
  | init : Player.ReachSafe initialPlayer
  | step {s : Player} (op : Op) :
      Player.ReachSafe s → SafeOp s op → Player.ReachSafe (s.step op)

/-! ### The order / pointer / handle invariants -/

/-- `Order` is a permutation of `[0, len(Queue))`. -/
def OrderInv (s : Player) : Prop :=
  s.order.Perm (List.range s.queue.length)

/-- `0 ≤ Position < len(Order)` on a nonempty queue; the pointer rests at
`0` while the queue is empty. -/
def PtrInv (s : Player) : Prop :=
  (s.queue = [] → s.currentPlayingPointer = 0) ∧
  (s.queue ≠ [] →
    0 ≤ s.currentPlayingPointer ∧ s.currentPlayingPointer < (s.order.length : Int))

/-- A live current handle implies a nonempty queue. -/
def AudioInv (s : Player) : Prop :=
  s.currentAudio.isSome → s.queue ≠ []

/-- The combined inductive invariant. -/
def EngineInv (s : Player) : Prop :=
  OrderInv s ∧ PtrInv s ∧ AudioInv s

/-- Input/output relation of the operations that leave the queue alone:
the order invariant survives them. -/
def OrdOk (s t : Player) : Prop :=
  t.queue = s.queue ∧ (OrderInv s → OrderInv t)

/-! ### Concrete fixtures for witnesses and counterexamples -/

def trackA : QueueItem := { url := "a" }

def trackB : QueueItem := { url := "b" }

def trackC : QueueItem := { url := "c" }

def trackD : QueueItem := { url := "d" }

def trackE : QueueItem := { url := "e" }

def trackF : QueueItem := { url := "f" }

/-- The 5-item playing state of the shuffle-continuity scenario: identity
order, Position 2, playing. -/
def c5Start (i1 i2 i3 i4 i5 : QueueItem) (a : Audio) (na : Option Audio) (lp : LoopMode) : Player :=
  { queue := [i1, i2, i3, i4, i5], isPlaying := true, currentAudio := some a, nextAudio := na,
    currentPlayingPointer := 2, order := [0, 1, 2, 3, 4], shuffle := false, loop := lp }

/-- The same state after `enableShuffle`: the kept prefix `[0,1,2]` followed
by the Fisher–Yates shuffle of the tail `[3,4]`. -/
def c5Shuffled (i1 i2 i3 i4 i5 : QueueItem) (a : Audio) (na : Option Audio) (lp : LoopMode)
    (rand1 : Nat → Nat) : Player :=
  { queue := [i1, i2, i3, i4, i5], isPlaying := true, currentAudio := some a, nextAudio := na,
    currentPlayingPointer := 2, order := [0, 1, 2] ++ fisherYates [3, 4] rand1, shuffle := true,
    loop := lp }

/-! ### Basic facts about the list helpers -/

theorem listGetI_nonneg {α : Type} (l : List α) (n : Nat) :
    listGetI l (n : Int) = l[n]? := by
  simp [listGetI]

theorem listGetI_ne_nil {α : Type} {l : List α} {i : Int} {x : α}
    (h : listGetI l i = some x) : l ≠ [] := by
  intro hnil
  subst hnil
  unfold listGetI at h
  split at h <;> simp_all

theorem listGetI_mem {α : Type} {l : List α} {i : Int} {x : α}
    (h : listGetI l i = some x) : x ∈ l := by
  unfold listGetI at h
  split at h
  · exact absurd h (by simp)
  · exact List.getElem?_mem h

theorem listGetI_eq_some {α : Type} {l : List α} {i : Int}
    (h0 : 0 ≤ i) (h1 : i < (l.length : Int)) :
    ∃ x, listGetI l i = some x := by
  unfold listGetI
  rw [if_neg (by omega)]
  have hlt : i.toNat < l.length := by omega
  exact ⟨l[i.toNat], List.getElem?_eq_getElem hlt⟩

/-- Moving a list element to the head in exchange for a new value is a
permutation. -/
theorem swapHead_perm {α : Type} :
    ∀ (l : List α) (j : Nat) (x y : α), l[j]? = some y →
      (y :: l.set j x).Perm (x :: l)
  | [], j, x, y, h => by simp at h
  | b :: t, 0, x, y, h => by
    simp only [List.getElem?_cons_zero, Option.some.injEq] at h
    rw [h]
    simpa [List.set] using List.Perm.swap x y t
  | b :: t, j + 1, x, y, h => by
    simp only [List.getElem?_cons_succ] at h
    have h1 : (y :: (b :: t).set (j + 1) x) = y :: b :: t.set j x := by simp [List.set]
    rw [h1]
    exact ((List.Perm.swap b y _).trans
      ((swapHead_perm t j x y h).cons b)).trans (List.Perm.swap x b t)

/-- Exchanging two present elements by a double `set` is a permutation. -/
theorem set_set_perm {α : Type} :
    ∀ (l : List α) (i j : Nat) (x y : α), l[i]? = some x → l[j]? = some y →
      ((l.set i y).set j x).Perm l
  | [], _, _, _, _, hi, _ => by simp at hi
  | b :: t, 0, 0, x, y, hi, hj => by
    simp only [List.getElem?_cons_zero, Option.some.injEq] at hi hj
    rw [hi]
    simp [List.set]
  | b :: t, 0, j + 1, x, y, hi, hj => by
    simp only [List.getElem?_cons_zero, Option.some.injEq, List.getElem?_cons_succ] at hi hj
    rw [hi]
    simpa [List.set] using swapHead_perm t j x y hj
  | b :: t, i + 1, 0, x, y, hi, hj => by
    simp only [List.getElem?_cons_zero, Option.some.injEq, List.getElem?_cons_succ] at hi hj
    rw [hj]
    simpa [List.set] using swapHead_perm t i y x hi
  | b :: t, i + 1, j + 1, x, y, hi, hj => by
    simp only [List.getElem?_cons_succ] at hi hj
    simpa [List.set] using (set_set_perm t i j x y hi hj).cons b

/-- A JS-style swap never changes the multiset of elements. -/
theorem listSwap_perm {α : Type} (l : List α) (i j : Nat) :
    (listSwap l i j).Perm l := by
  unfold listSwap
  split
  · exact set_set_perm _ _ _ _ _ (by assumption) (by assumption)
  · exact List.Perm.refl _

/-- The Fisher–Yates loop permutes its input. -/
theorem fisherYatesAux_perm (rand : Nat → Nat) :
    ∀ (n : Nat) (l : List Nat), (fisherYatesAux rand n l).Perm l
  | 0, l => List.Perm.refl l
  | i + 1, l =>
    (fisherYatesAux_perm rand i _).trans (listSwap_perm l (i + 1) (rand (i + 1) % (i + 2)))

/-- `fisherYates` permutes its input. -/
theorem fisherYates_perm (l : List Nat) (rand : Nat → Nat) :
    (fisherYates l rand).Perm l :=
  fisherYatesAux_perm rand (l.length - 1) l

theorem shuffleQueue_orderInv (s : Player) (rand : Nat → Nat) :
    OrderInv (s.shuffleQueue rand) := by
  unfold OrderInv Player.shuffleQueue
  simp only
  refine ((List.Perm.refl _).append (fisherYates_perm _ rand)).trans ?_
  exact List.filter_append_perm _ _

theorem restoreOriginalOrder_orderInv (s : Player) :
    OrderInv s.restoreOriginalOrder := by
  unfold OrderInv Player.restoreOriginalOrder
  simp

/-! ### Order-invariant preservation -/

theorem ordOk_refl (s : Player) : OrdOk s s := ⟨rfl, id⟩

theorem ordOk_trans {s t u : Player} (h1 : OrdOk s t) (h2 : OrdOk t u) : OrdOk s u :=
  ⟨h2.1.trans h1.1, fun h => h2.2 (h1.2 h)⟩

theorem ordOk_of_eq {s t : Player} (hq : t.queue = s.queue) (ho : t.order = s.order) :
    OrdOk s t := by
  refine ⟨hq, fun h => ?_⟩
  unfold OrderInv at *
  rw [ho, hq]
  exact h

theorem ordOk_restore (s : Player) : OrdOk s s.restoreOriginalOrder :=
  ⟨rfl, fun _ => restoreOriginalOrder_orderInv s⟩

theorem ordOk_fetchQueue (s : Player) : OrdOk s (s.fetchQueue).1 := by
  unfold Player.fetchQueue
  by_cases h : s.order.length = 0
  · simpa [h] using ordOk_restore s
  · simpa [h] using ordOk_refl s

theorem ordOk_notifyQueueChange (s : Player) : OrdOk s s.notifyQueueChange :=
  ordOk_fetchQueue s

theorem ordOk_getActualQueueIndex (s : Player) (i : Int) :
    OrdOk s (s.getActualQueueIndex i).1 := by
  unfold Player.getActualQueueIndex
  by_cases h : s.order.length = 0
  · simpa [h] using ordOk_restore s
  · simpa [h] using ordOk_refl s

theorem ordOk_getCurrentTrack (s : Player) : OrdOk s (s.getCurrentTrack).1 := by
  unfold Player.getCurrentTrack
  simpa using ordOk_getActualQueueIndex s s.currentPlayingPointer

theorem ordOk_reportMetadata (s : Player) : OrdOk s s.reportMetadata :=
  ordOk_getCurrentTrack s

theorem ordOk_scheduleNext (s : Player) : OrdOk s s.scheduleNext := by
  unfold Player.scheduleNext
  simp only []
  repeat' split
  all_goals
    first
      | exact ordOk_refl _
      | exact ordOk_trans (ordOk_getActualQueueIndex s _) (ordOk_of_eq rfl rfl)
      | exact ordOk_getActualQueueIndex s _

theorem ordOk_to (t : Player) {s : Player} (hq : t.queue = s.queue)
    (ho : t.order = s.order) : OrdOk s t :=
  ordOk_of_eq hq ho

theorem ordOk_trans2 {s t u : Player} (h2 : OrdOk t u) (h1 : OrdOk s t) : OrdOk s u :=
  ordOk_trans h1 h2

theorem ordOk_tryPlayCurrent (s : Player) (o : PlayOutcome) :
    OrdOk s (s.tryPlayCurrent o).1 := by
  unfold Player.tryPlayCurrent
  repeat' split
  all_goals
    first
      | exact ordOk_refl _
      | exact ordOk_of_eq rfl rfl

theorem ordOk_startPlay (s : Player) (o : PlayOutcome) :
    OrdOk s (s.startPlay o).1 := by
  unfold Player.startPlay
  simp only []
  repeat' split
  all_goals
    first
      | exact ordOk_getCurrentTrack s
      | exact ordOk_trans (ordOk_getCurrentTrack s) (ordOk_of_eq rfl rfl)
      | (refine ordOk_trans2 (ordOk_tryPlayCurrent _ _) ?_
         first
           | exact ordOk_getCurrentTrack s
           | exact ordOk_trans (ordOk_getCurrentTrack s) (ordOk_of_eq rfl rfl))
      | (refine ordOk_trans2 (ordOk_scheduleNext _) ?_
         exact ordOk_trans (ordOk_getCurrentTrack s) (ordOk_of_eq rfl rfl))

theorem ordOk_pausePlay (s : Player) : OrdOk s s.pausePlay := by
  unfold Player.pausePlay
  simp only []
  repeat' split
  all_goals
    first
      | exact ordOk_refl _
      | exact ordOk_of_eq rfl rfl

theorem ordOk_togglePlaying (s : Player) (playing : Option Bool) (o : PlayOutcome) :
    OrdOk s (s.togglePlaying playing o).1 := by
  unfold Player.togglePlaying
  simp only []
  repeat' split
  all_goals
    first
      | exact ordOk_refl _
      | (refine ordOk_trans2 (ordOk_startPlay _ _) ?_
         refine ordOk_trans2 (ordOk_reportMetadata _) ?_
         exact ordOk_of_eq rfl rfl)
      | (refine ordOk_trans2 (ordOk_pausePlay _) ?_
         refine ordOk_trans2 (ordOk_reportMetadata _) ?_
         exact ordOk_of_eq rfl rfl)

theorem ordOk_switchToTrack (s : Player) (trackIndex : Int) :
    OrdOk s (s.switchToTrack trackIndex) := by
  unfold Player.switchToTrack
  simp only []
  repeat' split
  all_goals
    first
      | exact ordOk_refl _
      | (refine ordOk_trans2 (ordOk_getCurrentTrack _) ?_
         exact ordOk_of_eq rfl rfl)
      | (refine ordOk_trans2 (ordOk_notifyQueueChange _) ?_
         refine ordOk_trans2 (ordOk_reportMetadata _) ?_
         have h0 : OrdOk s { s with currentAudio := none, nextAudio := none, currentPlayingPointer := trackIndex } := ordOk_of_eq rfl rfl
         exact ordOk_trans (ordOk_trans h0 (ordOk_getCurrentTrack _)) (ordOk_of_eq rfl rfl))

theorem ordOk_skipToNext (s : Player) (o : PlayOutcome) :
    OrdOk s (s.skipToNext o).1 := by
  unfold Player.skipToNext
  simp only []
  repeat' split
  all_goals
    first
      | exact ordOk_refl _
      | exact ordOk_switchToTrack s _
      | exact ordOk_trans (ordOk_switchToTrack s _) (ordOk_startPlay _ _)

theorem ordOk_skipToPrevious (s : Player) (o : PlayOutcome) :
    OrdOk s (s.skipToPrevious o).1 := by
  unfold Player.skipToPrevious
  simp only []
  repeat' split
  all_goals
    first
      | exact ordOk_refl _
      | exact ordOk_of_eq rfl rfl
      | exact ordOk_switchToTrack s _
      | exact ordOk_trans (ordOk_switchToTrack s _) (ordOk_startPlay _ _)

theorem ordOk_updateNextTrackSchedule (s : Player) :
    OrdOk s s.updateNextTrackSchedule := by
  unfold Player.updateNextTrackSchedule
  simp only []
  repeat' split
  all_goals
    first
      | exact ordOk_refl _
      | exact ordOk_of_eq rfl rfl
      | exact ordOk_scheduleNext _

theorem ordOk_seekTo (s : Player) (time : ℚ) : OrdOk s (s.seekTo time).1 := by
  unfold Player.seekTo
  simp only []
  repeat' split
  all_goals
    first
      | exact ordOk_refl _
      | (refine ordOk_trans2 (ordOk_updateNextTrackSchedule _) ?_
         exact ordOk_of_eq rfl rfl)

theorem ordOk_seekToPercentage (s : Player) (p : ℚ) :
    OrdOk s (s.seekToPercentage p).1 := by
  unfold Player.seekToPercentage
  simp only []
  repeat' split
  all_goals
    first
      | exact ordOk_refl _
      | exact ordOk_seekTo _ _

theorem ordOk_seekRelative (s : Player) (dt : ℚ) :
    OrdOk s (s.seekRelative dt).1 := by
  unfold Player.seekRelative
  repeat' split
  all_goals
    first
      | exact ordOk_refl _
      | exact ordOk_seekTo _ _

theorem ordOk_onTimeUpdate (s : Player) (t : ℚ) : OrdOk s (s.onTimeUpdate t) := by
  unfold Player.onTimeUpdate
  simp only []
  repeat' split
  all_goals
    first
      | exact ordOk_refl _
      | exact ordOk_of_eq rfl rfl
      | (refine ordOk_trans2 (ordOk_scheduleNext _) ?_
         exact ordOk_of_eq rfl rfl)

theorem ordOk_metadataLoaded (s : Player) (d : ℚ) : OrdOk s (s.metadataLoaded d) := by
  unfold Player.metadataLoaded
  repeat' split
  all_goals
    first
      | exact ordOk_refl _
      | exact ordOk_of_eq rfl rfl

theorem ordOk_shuffleQueue (s : Player) (rand : Nat → Nat) :
    OrdOk s (s.shuffleQueue rand) :=
  ⟨rfl, fun _ => shuffleQueue_orderInv s rand⟩

theorem ordOk_toggleShuffle (s : Player) (b : Option Bool) (rand : Nat → Nat) :
    OrdOk s (s.toggleShuffle b rand) := by
  unfold Player.toggleShuffle
  simp only []
  repeat' split
  all_goals
    first
      | exact ordOk_refl _
      | (refine ordOk_trans2 (ordOk_notifyQueueChange _) ?_
         first
           | (refine ordOk_trans2 (ordOk_shuffleQueue _ rand) ?_
              exact ordOk_of_eq rfl rfl)
           | (refine ordOk_trans2 (ordOk_restore _) ?_
              exact ordOk_of_eq rfl rfl))

theorem ordOk_toggleLoop (s : Player) (mode : Option LoopMode) :
    OrdOk s (s.toggleLoop mode) := by
  unfold Player.toggleLoop
  simp only []
  repeat' split
  all_goals
    first
      | exact ordOk_refl _
      | exact ordOk_of_eq rfl rfl

theorem ordOk_playNext (s : Player) (o1 o2 o3 : PlayOutcome) :
    OrdOk s (s.playNext o1 o2 o3).1 := by
  unfold Player.playNext
  simp only []
  repeat' split
  all_goals
    first
      | exact ordOk_refl _
      | exact ordOk_of_eq rfl rfl
      | exact ordOk_togglePlaying _ _ _
      | (refine ordOk_trans2 (ordOk_startPlay _ _) ?_
         exact ordOk_of_eq rfl rfl)
      | (refine ordOk_trans2 (ordOk_notifyQueueChange _) ?_
         refine ordOk_trans2 (ordOk_reportMetadata _) ?_
         exact ordOk_of_eq rfl rfl)

theorem ordOk_handleTrackEnd (s : Player) (o1 o2 o3 : PlayOutcome) :
    OrdOk s (s.handleTrackEnd o1 o2 o3).1 := by
  unfold Player.handleTrackEnd
  simp only []
  repeat' split
  all_goals
    first
      | exact ordOk_refl _
      | exact ordOk_of_eq rfl rfl
      | exact ordOk_togglePlaying _ _ _
      | exact ordOk_playNext _ _ _ _
      | (refine ordOk_trans2 (ordOk_playNext _ _ _ _) ?_
         exact ordOk_of_eq rfl rfl)

theorem ordOk_trackEnded (s : Player) (o1 o2 o3 : PlayOutcome) :
    OrdOk s (s.trackEnded o1 o2 o3).1 := by
  unfold Player.trackEnded
  repeat' split
  all_goals
    first
      | exact ordOk_refl _
      | (refine ordOk_trans2 (ordOk_handleTrackEnd _ _ _ _) ?_
         exact ordOk_of_eq rfl rfl)

theorem orderInv_replaceQueue (s : Player) (items : List QueueItem) :
    OrderInv (s.replaceQueue items) := by
  unfold Player.replaceQueue
  refine (ordOk_notifyQueueChange _).2 ?_
  unfold OrderInv
  simp

theorem orderInv_appendTrack {s : Player} (track : QueueItem) (h : OrderInv s) :
    OrderInv (s.appendTrack track) := by
  unfold Player.appendTrack
  refine (ordOk_notifyQueueChange _).2 ?_
  unfold OrderInv at h ⊢
  simp only []
  have hlen : s.order.length = s.queue.length := by
    simpa using h.length_eq
  rw [hlen, List.length_append, List.length_singleton, List.range_succ]
  exact h.append (List.Perm.refl [s.queue.length])

/-- Every operation preserves the order invariant. -/
theorem orderInv_step (s : Player) (op : Op) (h : OrderInv s) :
    OrderInv (s.step op) := by
  cases op with
  | replaceQueue items => exact orderInv_replaceQueue s items
  | appendTrack item => exact orderInv_appendTrack item h
  | togglePlaying playing o => exact (ordOk_togglePlaying s playing o).2 h
  | toggleShuffle b rand => exact (ordOk_toggleShuffle s b rand).2 h
  | toggleLoop mode => exact (ordOk_toggleLoop s mode).2 h
  | skipToNext o => exact (ordOk_skipToNext s o).2 h
  | skipToPrevious o => exact (ordOk_skipToPrevious s o).2 h
  | seekTo t => exact (ordOk_seekTo s t).2 h
  | seekToPercentage p => exact (ordOk_seekToPercentage s p).2 h
  | seekRelative dt => exact (ordOk_seekRelative s dt).2 h
  | trackEnded o1 o2 o3 => exact (ordOk_trackEnded s o1 o2 o3).2 h
  | timeUpdate t => exact (ordOk_onTimeUpdate s t).2 h
  | metadataLoaded d => exact (ordOk_metadataLoaded s d).2 h

/-- The order invariant holds in every reachable state. -/
theorem reach_orderInv {s : Player} (h : Player.Reach s) : OrderInv s := by
  induction h with
  | init => unfold OrderInv initialPlayer; simp
  | step op _ ih => exact orderInv_step _ op ih

/-! ### Full invariant preservation -/

theorem orderInv_length {s : Player} (h : OrderInv s) :
    s.order.length = s.queue.length := by
  simpa using h.length_eq

/-- Transport of the invariant along a state that keeps queue, order and
pointer, with an explicit proof for the handle condition. -/
theorem engineInv_mk {s : Player} (t : Player) (h : EngineInv s)
    (hq : t.queue = s.queue) (ho : t.order = s.order)
    (hp : t.currentPlayingPointer = s.currentPlayingPointer)
    (ha : t.currentAudio.isSome = true → t.queue ≠ []) : EngineInv t := by
  obtain ⟨h1, ⟨h2a, h2b⟩, _⟩ := h
  refine ⟨?_, ⟨?_, ?_⟩, ha⟩
  · unfold OrderInv at *
    rw [ho, hq]
    exact h1
  · intro he
    rw [hp]
    exact h2a (by rwa [hq] at he)
  · intro hne
    rw [hp, ho]
    exact h2b (by rwa [hq] at hne)

theorem engineInv_restore {s : Player} (h : EngineInv s) :
    EngineInv s.restoreOriginalOrder := by
  obtain ⟨h1, ⟨h2a, h2b⟩, h3⟩ := h
  refine ⟨restoreOriginalOrder_orderInv s, ⟨?_, ?_⟩, ?_⟩
  · -- empty queue keeps the pointer at 0
    intro he
    unfold Player.restoreOriginalOrder at he ⊢
    simp only [] at he ⊢
    split
    · -- active playback: a live handle contradicts the empty queue
      rename_i hact
      cases hca : s.currentAudio with
      | none => rw [hca] at hact; simp at hact
      | some a => exact absurd (h3 (by rw [hca]; rfl)) (by simp [he])
    · exact h2a he
  · intro hne
    unfold Player.restoreOriginalOrder at hne ⊢
    simp only [] at hne ⊢
    have hq0 : 0 < s.queue.length := List.length_pos.mpr hne
    split
    · split
      · split
        · rename_i cp _ hmem
          constructor
          · exact Int.ofNat_nonneg _
          · have hlt : (List.range s.queue.length).indexOf cp <
                (List.range s.queue.length).length := List.indexOf_lt_length.mpr hmem
            simp only [List.length_range] at hlt ⊢
            exact_mod_cast hlt
        · constructor
          · exact le_refl 0
          · simp only [List.length_range]
            exact_mod_cast hq0
      · constructor
        · exact le_refl 0
        · simp only [List.length_range]
          exact_mod_cast hq0
    · have hb := h2b hne
      have hlen : s.order.length = s.queue.length := orderInv_length h1
      constructor
      · exact hb.1
      · simp only [List.length_range]
        omega
  · intro hs
    exact h3 hs

theorem engineInv_fetchQueue {s : Player} (h : EngineInv s) :
    EngineInv (s.fetchQueue).1 := by
  unfold Player.fetchQueue
  simp only []
  split
  · exact engineInv_restore h
  · exact h

theorem engineInv_notifyQueueChange {s : Player} (h : EngineInv s) :
    EngineInv s.notifyQueueChange :=
  engineInv_fetchQueue h

theorem engineInv_getActualQueueIndex {s : Player} (i : Int) (h : EngineInv s) :
    EngineInv (s.getActualQueueIndex i).1 := by
  unfold Player.getActualQueueIndex
  simp only []
  split
  · exact engineInv_restore h
  · exact h

theorem engineInv_getCurrentTrack {s : Player} (h : EngineInv s) :
    EngineInv (s.getCurrentTrack).1 := by
  unfold Player.getCurrentTrack
  simp only []
  exact engineInv_getActualQueueIndex s.currentPlayingPointer h

theorem engineInv_reportMetadata {s : Player} (h : EngineInv s) :
    EngineInv s.reportMetadata :=
  engineInv_getCurrentTrack h

theorem getActualQueueIndex_queue (s : Player) (i : Int) :
    (s.getActualQueueIndex i).1.queue = s.queue :=
  (ordOk_getActualQueueIndex s i).1

theorem getCurrentTrack_queue (s : Player) :
    (s.getCurrentTrack).1.queue = s.queue :=
  (ordOk_getCurrentTrack s).1

theorem getCurrentTrack_some_ne_nil {s : Player} {track : QueueItem}
    (h : (s.getCurrentTrack).2 = some track) : (s.getCurrentTrack).1.queue ≠ [] := by
  unfold Player.getCurrentTrack at h ⊢
  simp only [] at h ⊢
  exact listGetI_ne_nil h

theorem engineInv_scheduleNext {s : Player} (h : EngineInv s) :
    EngineInv s.scheduleNext := by
  unfold Player.scheduleNext
  simp only []
  repeat' split
  all_goals
    first
      | exact h
      | exact engineInv_getActualQueueIndex _ h
      | exact engineInv_mk _ (engineInv_getActualQueueIndex _ h) rfl rfl rfl
          (fun hs => (engineInv_getActualQueueIndex _ h).2.2 hs)

theorem engineInv_tryPlayCurrent {s : Player} {o : PlayOutcome} (h : EngineInv s) :
    EngineInv (s.tryPlayCurrent o).1 := by
  unfold Player.tryPlayCurrent
  repeat' split
  all_goals
    first
      | exact h
      | exact engineInv_mk _ h rfl rfl rfl (fun hs => h.2.2 hs)
      | exact engineInv_mk _ h rfl rfl rfl (fun hs => h.2.2 (by simp_all))

theorem engineInv_startPlay {s : Player} {o : PlayOutcome} (h : EngineInv s) :
    EngineInv (s.startPlay o).1 := by
  unfold Player.startPlay
  simp only []
  have hY := engineInv_getCurrentTrack h
  repeat' split
  all_goals
    first
      | exact hY
      | exact engineInv_mk _ hY rfl rfl rfl (fun hs => hY.2.2 (by simp_all))
      | exact engineInv_scheduleNext
          (engineInv_mk _ hY rfl rfl rfl (fun hs => hY.2.2 (by simp_all)))
      | exact engineInv_tryPlayCurrent hY
      | (rename_i track heq
         exact engineInv_tryPlayCurrent
           (engineInv_mk _ hY rfl rfl rfl (fun hs => getCurrentTrack_some_ne_nil heq)))

theorem engineInv_pausePlay {s : Player} (h : EngineInv s) :
    EngineInv s.pausePlay := by
  unfold Player.pausePlay
  simp only []
  repeat' split
  all_goals
    first
      | exact h
      | exact engineInv_mk _ h rfl rfl rfl (fun hs => h.2.2 hs)
      | exact engineInv_mk _ h rfl rfl rfl (fun hs => h.2.2 (by simp_all))

theorem engineInv_togglePlaying {s : Player} {playing : Option Bool} {o : PlayOutcome}
    (h : EngineInv s) : EngineInv (s.togglePlaying playing o).1 := by
  unfold Player.togglePlaying
  simp only []
  repeat' split
  all_goals
    first
      | exact h
      | exact engineInv_startPlay
          (engineInv_reportMetadata (engineInv_mk _ h rfl rfl rfl (fun hs => h.2.2 hs)))
      | exact engineInv_pausePlay
          (engineInv_reportMetadata (engineInv_mk _ h rfl rfl rfl (fun hs => h.2.2 hs)))

theorem engineInv_switchToTrack {s : Player} {trackIndex : Int} (h : EngineInv s) :
    EngineInv (s.switchToTrack trackIndex) := by
  unfold Player.switchToTrack
  simp only []
  split
  · exact h
  · rename_i hvalid
    push_neg at hvalid
    have hX : EngineInv { s with currentAudio := none, nextAudio := none, currentPlayingPointer := trackIndex } := by
      obtain ⟨h1, ⟨h2a, h2b⟩, h3⟩ := h
      have hlen := orderInv_length h1
      have hq0 : s.queue ≠ [] := by
        intro hc
        have hl0 : s.queue.length = 0 := by rw [hc]; rfl
        omega
      refine ⟨h1, ⟨fun hc => absurd hc hq0, fun _ => ⟨hvalid.1, ?_⟩⟩, fun hs => by simp at hs⟩
      show trackIndex < (s.order.length : Int)
      omega
    have hY := engineInv_getCurrentTrack hX
    split
    · exact hY
    · rename_i track heq
      exact engineInv_notifyQueueChange (engineInv_reportMetadata
        (engineInv_mk _ hY rfl rfl rfl (fun hs => getCurrentTrack_some_ne_nil heq)))

theorem engineInv_skipToNext {s : Player} {o : PlayOutcome} (h : EngineInv s) :
    EngineInv (s.skipToNext o).1 := by
  unfold Player.skipToNext
  simp only []
  repeat' split
  all_goals
    first
      | exact h
      | exact engineInv_switchToTrack h
      | exact engineInv_startPlay (engineInv_switchToTrack h)

theorem engineInv_skipToPrevious {s : Player} {o : PlayOutcome} (h : EngineInv s) :
    EngineInv (s.skipToPrevious o).1 := by
  unfold Player.skipToPrevious
  simp only []
  repeat' split
  all_goals
    first
      | exact h
      | exact engineInv_switchToTrack h
      | exact engineInv_startPlay (engineInv_switchToTrack h)
      | exact engineInv_mk _ h rfl rfl rfl (fun hs => h.2.2 (by simp_all))

theorem engineInv_updateNextTrackSchedule {s : Player} (h : EngineInv s) :
    EngineInv s.updateNextTrackSchedule := by
  unfold Player.updateNextTrackSchedule
  simp only []
  repeat' split
  all_goals
    first
      | exact h
      | exact engineInv_scheduleNext h
      | exact engineInv_mk _ h rfl rfl rfl (fun hs => h.2.2 hs)

theorem engineInv_seekTo {s : Player} {time : ℚ} (h : EngineInv s) :
    EngineInv (s.seekTo time).1 := by
  unfold Player.seekTo
  simp only []
  repeat' split
  all_goals
    first
      | exact h
      | exact engineInv_updateNextTrackSchedule
          (engineInv_mk _ h rfl rfl rfl (fun hs => h.2.2 (by simp_all)))

theorem engineInv_seekToPercentage {s : Player} {p : ℚ} (h : EngineInv s) :
    EngineInv (s.seekToPercentage p).1 := by
  unfold Player.seekToPercentage
  simp only []
  repeat' split
  all_goals
    first
      | exact h
      | exact engineInv_seekTo h

theorem engineInv_seekRelative {s : Player} {dt : ℚ} (h : EngineInv s) :
    EngineInv (s.seekRelative dt).1 := by
  unfold Player.seekRelative
  repeat' split
  all_goals
    first
      | exact h
      | exact engineInv_seekTo h

theorem engineInv_onTimeUpdate {s : Player} {t : ℚ} (h : EngineInv s) :
    EngineInv (s.onTimeUpdate t) := by
  unfold Player.onTimeUpdate
  simp only []
  repeat' split
  all_goals
    first
      | exact h
      | exact engineInv_mk _ h rfl rfl rfl (fun hs => h.2.2 (by simp_all))
      | exact engineInv_scheduleNext
          (engineInv_mk _ h rfl rfl rfl (fun hs => h.2.2 (by simp_all)))

theorem engineInv_metadataLoaded {s : Player} {d : ℚ} (h : EngineInv s) :
    EngineInv (s.metadataLoaded d) := by
  unfold Player.metadataLoaded
  repeat' split
  all_goals
    first
      | exact h
      | exact engineInv_mk _ h rfl rfl rfl (fun hs => h.2.2 (by simp_all))

theorem engineInv_shuffleQueue {s : Player} (rand : Nat → Nat) (h : EngineInv s) :
    EngineInv (s.shuffleQueue rand) := by
  obtain ⟨h1, ⟨h2a, h2b⟩, h3⟩ := h
  have hOrd : OrderInv (s.shuffleQueue rand) := shuffleQueue_orderInv s rand
  refine ⟨hOrd, ⟨fun he => h2a he, fun hne => ?_⟩, fun hs => h3 hs⟩
  have hb := h2b hne
  have hlen1 : (s.shuffleQueue rand).order.length = s.queue.length := by
    simpa using hOrd.length_eq
  have hlen2 := orderInv_length h1
  refine ⟨hb.1, ?_⟩
  show s.currentPlayingPointer < ((s.shuffleQueue rand).order.length : Int)
  rw [hlen1]
  omega

theorem engineInv_toggleShuffle {s : Player} {b : Option Bool} {rand : Nat → Nat}
    (h : EngineInv s) : EngineInv (s.toggleShuffle b rand) := by
  unfold Player.toggleShuffle
  simp only []
  repeat' split
  all_goals
    first
      | exact h
      | exact engineInv_notifyQueueChange (engineInv_shuffleQueue rand
          (engineInv_mk _ h rfl rfl rfl (fun hs => h.2.2 hs)))
      | exact engineInv_notifyQueueChange (engineInv_restore
          (engineInv_mk _ h rfl rfl rfl (fun hs => h.2.2 hs)))

theorem engineInv_toggleLoop {s : Player} {mode : Option LoopMode} (h : EngineInv s) :
    EngineInv (s.toggleLoop mode) := by
  unfold Player.toggleLoop
  simp only []
  repeat' split
  all_goals
    first
      | exact h
      | exact engineInv_mk _ h rfl rfl rfl (fun hs => h.2.2 hs)

/-- Build the invariant for a state that only moved the pointer to a
validated position (queue and order untouched, queue nonempty). -/
theorem engineInv_setPointer {s : Player} (t : Player) (h1 : OrderInv s)
    (hqne : s.queue ≠ []) (hq : t.queue = s.queue) (ho : t.order = s.order)
    (hp0 : 0 ≤ t.currentPlayingPointer)
    (hp1 : t.currentPlayingPointer < (s.queue.length : Int)) : EngineInv t := by
  have hlen := orderInv_length h1
  refine ⟨?_, ⟨?_, ?_⟩, ?_⟩
  · unfold OrderInv at *
    rw [ho, hq]
    exact h1
  · intro hc
    rw [hq] at hc
    exact absurd hc hqne
  · intro _
    refine ⟨hp0, ?_⟩
    rw [ho]
    omega
  · intro _
    rw [hq]
    exact hqne

theorem engineInv_playNext {s : Player} {o1 o2 o3 : PlayOutcome}
    (h1 : OrderInv s) (hqne : s.queue ≠ [])
    (hlow : -1 ≤ s.currentPlayingPointer)
    (hup : s.currentPlayingPointer + 1 < (s.queue.length : Int)) :
    EngineInv (s.playNext o1 o2 o3).1 := by
  have hlen := orderInv_length h1
  have hq0 : 0 < s.queue.length := List.length_pos.mpr hqne
  have hwrapneg : ¬((s.queue.length : Int) ≤ s.currentPlayingPointer + 1 ∧
      s.loop = LoopMode.entire_queue) := fun hc => absurd hup (not_lt.mpr hc.1)
  unfold Player.playNext
  simp only []
  cases hna : s.nextAudio with
  | none =>
    simp only [hna]
    rw [if_pos hup]
    refine engineInv_startPlay (engineInv_setPointer _ h1 hqne rfl rfl ?_ ?_)
    · show (0 : Int) ≤ s.currentPlayingPointer + 1
      omega
    · show s.currentPlayingPointer + 1 < (s.queue.length : Int)
      omega
  | some na =>
    simp only [hna]
    cases hca : s.currentAudio <;> simp only [hca] <;> cases o1 <;>
      (try simp only []) <;> rw [if_neg hwrapneg] <;> cases o2 <;> (try simp only [])
    all_goals
      first
        | exact engineInv_notifyQueueChange (engineInv_reportMetadata
            (engineInv_setPointer _ h1 hqne rfl rfl
              (by
                show (0 : Int) ≤ s.currentPlayingPointer + 1
                omega)
              (by
                show s.currentPlayingPointer + 1 < (s.queue.length : Int)
                omega)))
        | (by_cases hc2 : s.currentPlayingPointer + 1 + 1 < (s.queue.length : Int)
           · rw [if_pos hc2]
             refine engineInv_startPlay (engineInv_setPointer _ h1 hqne rfl rfl ?_ ?_)
             · show (0 : Int) ≤ s.currentPlayingPointer + 1 + 1
               omega
             · show s.currentPlayingPointer + 1 + 1 < (s.queue.length : Int)
               exact hc2
           · rw [if_neg hc2]
             refine engineInv_setPointer _ h1 hqne rfl rfl ?_ ?_
             · show (0 : Int) ≤ s.currentPlayingPointer + 1
               omega
             · show s.currentPlayingPointer + 1 < (s.queue.length : Int)
               omega)

theorem engineInv_handleTrackEnd {s : Player} {o1 o2 o3 : PlayOutcome}
    (h : EngineInv s) (hca : s.currentAudio.isSome = true) :
    EngineInv (s.handleTrackEnd o1 o2 o3).1 := by
  have hqne : s.queue ≠ [] := h.2.2 hca
  have hq0 : 0 < s.queue.length := List.length_pos.mpr hqne
  have hptr := h.2.1.2 hqne
  have hlen := orderInv_length h.1
  unfold Player.handleTrackEnd
  simp only []
  split
  · -- single-track loop: the same handle is rewound
    repeat' split
    all_goals
      first
        | exact h
        | exact engineInv_mk _ h rfl rfl rfl (fun _ => hqne)
  · split
    · split
      · -- end of queue under entire-queue loop: pointer parked at -1, playNext wraps
        refine engineInv_playNext h.1 hqne ?_ ?_
        · show (-1 : Int) ≤ -1
          omega
        · show (-1 : Int) + 1 < (s.queue.length : Int)
          omega
      · -- end of queue, no loop: stop playback
        exact engineInv_togglePlaying h
    · -- normal advance
      rename_i hc
      exact engineInv_playNext h.1 hqne (by omega) (by omega)

theorem engineInv_trackEnded {s : Player} {o1 o2 o3 : PlayOutcome} (h : EngineInv s) :
    EngineInv (s.trackEnded o1 o2 o3).1 := by
  unfold Player.trackEnded
  split
  · exact h
  · rename_i a hca
    refine engineInv_handleTrackEnd ?_ rfl
    exact engineInv_mk _ h rfl rfl rfl (fun _ => h.2.2 (by simp [hca]))

theorem engineInv_appendTrack {s : Player} (track : QueueItem) (h : EngineInv s) :
    EngineInv (s.appendTrack track) := by
  obtain ⟨h1, ⟨h2a, h2b⟩, h3⟩ := h
  have hlen := orderInv_length h1
  unfold Player.appendTrack
  simp only []
  refine engineInv_notifyQueueChange ⟨?_, ⟨?_, ?_⟩, ?_⟩
  · unfold OrderInv at h1 ⊢
    simp only []
    have hq : (s.queue ++ [track]).length = s.queue.length + 1 := by simp
    rw [hq, hlen, List.range_succ]
    exact h1.append (List.Perm.refl [s.queue.length])
  · intro hc
    exact absurd hc (by simp)
  · intro _
    constructor
    · show (0 : Int) ≤ s.currentPlayingPointer
      rcases eq_or_ne s.queue [] with hq | hq
      · have := h2a hq
        omega
      · have := (h2b hq).1
        omega
    · show s.currentPlayingPointer < ((s.order ++ [s.order.length]).length : Int)
      simp only [List.length_append, List.length_singleton]
      rcases eq_or_ne s.queue [] with hq | hq
      · have := h2a hq
        omega
      · have := (h2b hq).2
        omega
  · intro _
    simp

theorem engineInv_replaceQueue {s : Player} (items : List QueueItem) (h : EngineInv s)
    (hsafe : s.currentPlayingPointer < (items.length : Int) ∨ s.currentPlayingPointer = 0) :
    EngineInv (s.replaceQueue items) := by
  obtain ⟨h1, ⟨h2a, h2b⟩, h3⟩ := h
  have hptr0 : 0 ≤ s.currentPlayingPointer := by
    rcases eq_or_ne s.queue [] with hq | hq
    · have := h2a hq
      omega
    · exact (h2b hq).1
  unfold Player.replaceQueue
  simp only []
  refine engineInv_notifyQueueChange ⟨?_, ⟨?_, ?_⟩, ?_⟩
  · unfold OrderInv
    simp
  · intro hc
    show s.currentPlayingPointer = 0
    have hi : items = [] := hc
    rcases hsafe with hlt | h0
    · rw [hi] at hlt
      simp at hlt
      omega
    · exact h0
  · intro hne
    have hi : items ≠ [] := hne
    have hq0 : 0 < items.length := List.length_pos.mpr hi
    refine ⟨hptr0, ?_⟩
    show s.currentPlayingPointer < ((List.range items.length).length : Int)
    simp only [List.length_range]
    rcases hsafe with hlt | h0
    · exact hlt
    · omega
  · intro hs
    simp at hs

/-- Every operation allowed by `SafeOp` preserves the combined invariant. -/
theorem engineInv_step {s : Player} (op : Op) (h : EngineInv s) (hsafe : SafeOp s op) :
    EngineInv (s.step op) := by
  cases op with
  | replaceQueue items => exact engineInv_replaceQueue items h hsafe
  | appendTrack item => exact engineInv_appendTrack item h
  | togglePlaying playing o => exact engineInv_togglePlaying h
  | toggleShuffle b rand => exact engineInv_toggleShuffle h
  | toggleLoop mode => exact engineInv_toggleLoop h
  | skipToNext o => exact engineInv_skipToNext h
  | skipToPrevious o => exact engineInv_skipToPrevious h
  | seekTo t => exact engineInv_seekTo h
  | seekToPercentage p => exact engineInv_seekToPercentage h
  | seekRelative dt => exact engineInv_seekRelative h
  | trackEnded o1 o2 o3 => exact engineInv_trackEnded h
  | timeUpdate t => exact engineInv_onTimeUpdate h
  | metadataLoaded d => exact engineInv_metadataLoaded h

theorem engineInv_initial : EngineInv initialPlayer := by
  refine ⟨?_, ⟨fun _ => rfl, fun hne => absurd rfl hne⟩, fun hs => by simp [initialPlayer] at hs⟩
  unfold OrderInv initialPlayer
  simp

/-- The combined invariant holds in every state reachable under the safety
side condition. -/
theorem reachSafe_engineInv {s : Player} (h : Player.ReachSafe s) : EngineInv s := by
  induction h with
  | init => exact engineInv_initial
  | step op _ hsafe ih => exact engineInv_step op ih hsafe

/-! ### Claims -/

/-- C1 counterexample: after `replaceQueue [A,B], skipToNext` the pointer is
`1`; a further `replaceQueue [A]` leaves it at `1`, not `0`, refuting
"replaceQueue ... resets Position to 0" at this reachable state. -/
theorem c1_counterexample :
    (Player.replaceQueue
        (Player.run [Op.replaceQueue [trackA, trackB], Op.skipToNext PlayOutcome.success])
        [trackA]).currentPlayingPointer ≠ 0 := by
  decide

/-- C1 (amended): for every prior engine state and input list,
`replaceQueue(items)` sets Queue to items, Order to the identity
permutation, resets shuffle to off and loop to Off and destroys the
current handle — but it leaves Position unchanged rather than resetting
it to 0. -/
theorem c1_replaceQueue_spec (s : Player) (items : List QueueItem) :
    (s.replaceQueue items).queue = items ∧
    (s.replaceQueue items).order = List.range items.length ∧
    (s.replaceQueue items).shuffle = false ∧
    (s.replaceQueue items).loop = LoopMode.off ∧
    (s.replaceQueue items).currentAudio = none ∧
    (s.replaceQueue items).currentPlayingPointer = s.currentPlayingPointer := by
  unfold Player.replaceQueue Player.notifyQueueChange Player.fetchQueue
  simp only []
  split
  · unfold Player.restoreOriginalOrder
    simp
  · simp

/-- C2 counterexample: the operation sequence
`replaceQueue [A,B,C]; skipToNext; skipToNext; replaceQueue [D]` reaches a
state with a nonempty queue whose Position (2) is not below
`len(Order) = 1`, refuting the claimed invariant. -/
theorem c2_counterexample :
    Player.Reach (Player.run [Op.replaceQueue [trackA, trackB, trackC],
      Op.skipToNext PlayOutcome.success, Op.skipToNext PlayOutcome.success,
      Op.replaceQueue [trackD]]) ∧
    (Player.run [Op.replaceQueue [trackA, trackB, trackC],
      Op.skipToNext PlayOutcome.success, Op.skipToNext PlayOutcome.success,
      Op.replaceQueue [trackD]]).queue ≠ [] ∧
    ¬((Player.run [Op.replaceQueue [trackA, trackB, trackC],
        Op.skipToNext PlayOutcome.success, Op.skipToNext PlayOutcome.success,
        Op.replaceQueue [trackD]]).currentPlayingPointer <
      (((Player.run [Op.replaceQueue [trackA, trackB, trackC],
        Op.skipToNext PlayOutcome.success, Op.skipToNext PlayOutcome.success,
        Op.replaceQueue [trackD]]).order.length : Int))) := by
  refine ⟨?_, by decide, by decide⟩
  exact Player.Reach.step (Op.replaceQueue [trackD])
    (Player.Reach.step (Op.skipToNext PlayOutcome.success)
      (Player.Reach.step (Op.skipToNext PlayOutcome.success)
        (Player.Reach.step (Op.replaceQueue [trackA, trackB, trackC]) Player.Reach.init)))

/-- C2 (amended): `0 ≤ Position < len(Order)` holds on every nonempty queue
in all states reachable by sequences in which each `replaceQueue(items)`
call is made while Position is inside the new list or still 0; the code's
`replaceQueue` keeps Position, so replacing the queue with a shorter one
while Position points past its end breaks the bound. -/
theorem c2_position_invariant {s : Player} (h : Player.ReachSafe s)
    (hne : s.queue ≠ []) :
    0 ≤ s.currentPlayingPointer ∧
    s.currentPlayingPointer < ((s.order.length : Int)) :=
  (reachSafe_engineInv h).2.1.2 hne

theorem c2_position_invariant_witness :
    0 ≤ (Player.step initialPlayer (Op.replaceQueue [trackA])).currentPlayingPointer ∧
    (Player.step initialPlayer (Op.replaceQueue [trackA])).currentPlayingPointer <
      (((Player.step initialPlayer (Op.replaceQueue [trackA])).order.length : Int)) :=
  c2_position_invariant
    (Player.ReachSafe.step (Op.replaceQueue [trackA]) Player.ReachSafe.init (Or.inr rfl))
    (by decide)

/-- C3: in every reachable state, Order is a permutation of
`[0, len(Queue))`: equal length, no duplicates, no out-of-range entry. -/
theorem c3_order_permutation {s : Player} (h : Player.Reach s) :
    s.order.Perm (List.range s.queue.length) ∧
    s.order.length = s.queue.length ∧
    s.order.Nodup ∧
    ∀ i ∈ s.order, i < s.queue.length := by
  have hp := reach_orderInv h
  refine ⟨hp, orderInv_length hp, ?_, ?_⟩
  · exact hp.nodup_iff.mpr (List.nodup_range _)
  · intro i hi
    have : i ∈ List.range s.queue.length := hp.mem_iff.mp hi
    simpa using this

theorem c3_order_permutation_witness :
    (Player.step initialPlayer (Op.appendTrack trackA)).order.Perm
      (List.range (Player.step initialPlayer (Op.appendTrack trackA)).queue.length) ∧
    (Player.step initialPlayer (Op.appendTrack trackA)).order.length =
      (Player.step initialPlayer (Op.appendTrack trackA)).queue.length ∧
    (Player.step initialPlayer (Op.appendTrack trackA)).order.Nodup ∧
    ∀ i ∈ (Player.step initialPlayer (Op.appendTrack trackA)).order,
      i < (Player.step initialPlayer (Op.appendTrack trackA)).queue.length :=
  c3_order_permutation (Player.Reach.step _ Player.Reach.init)

/-- C9: when `Position + 1 ≥ len(Queue)`, `skipToNext` is a complete no-op —
state, notifications and result are all unchanged — for every loop mode,
including EntireQueue; the pointer wrap exists only in the track-end path. -/
theorem c9_skipToNext_at_end (s : Player) (o : PlayOutcome)
    (h : (s.queue.length : Int) ≤ s.currentPlayingPointer + 1) :
    s.skipToNext o = (s, [], Except.ok ()) := by
  unfold Player.skipToNext
  rw [if_neg (not_lt.mpr h)]

theorem c9_skipToNext_at_end_witness :
    Player.skipToNext
        (Player.run [Op.replaceQueue [trackA, trackB], Op.toggleLoop (some LoopMode.entire_queue),
          Op.skipToNext PlayOutcome.success]) PlayOutcome.success =
      (Player.run [Op.replaceQueue [trackA, trackB], Op.toggleLoop (some LoopMode.entire_queue),
        Op.skipToNext PlayOutcome.success], [], Except.ok ()) :=
  c9_skipToNext_at_end _ _ (by decide)

/-- C8: on any state satisfying the order-length invariant, `appendTrack`
appends the item to the queue and appends exactly one trailing entry — the
new item's queue index `len(Queue) - 1` — to Order, leaving the existing
Order prefix, Position, shuffle and loop unchanged, shuffled or not. -/
theorem c8_appendTrack_spec (s : Player) (track : QueueItem)
    (h : s.order.length = s.queue.length) :
    (s.appendTrack track).queue = s.queue ++ [track] ∧
    (s.appendTrack track).order = s.order ++ [(s.queue ++ [track]).length - 1] ∧
    (s.appendTrack track).currentPlayingPointer = s.currentPlayingPointer ∧
    (s.appendTrack track).shuffle = s.shuffle ∧
    (s.appendTrack track).loop = s.loop := by
  unfold Player.appendTrack Player.notifyQueueChange Player.fetchQueue
  simp only []
  split
  · rename_i hlen
    simp at hlen
  · refine ⟨rfl, ?_, rfl, rfl, rfl⟩
    simp [h]

theorem c8_appendTrack_spec_witness :
    (Player.appendTrack
        (Player.run [Op.replaceQueue [trackA, trackB, trackC, trackD, trackE],
          Op.toggleShuffle (some true) (fun _ => 0)]) trackF).queue =
      (Player.run [Op.replaceQueue [trackA, trackB, trackC, trackD, trackE],
        Op.toggleShuffle (some true) (fun _ => 0)]).queue ++ [trackF] ∧
    (Player.appendTrack
        (Player.run [Op.replaceQueue [trackA, trackB, trackC, trackD, trackE],
          Op.toggleShuffle (some true) (fun _ => 0)]) trackF).order =
      (Player.run [Op.replaceQueue [trackA, trackB, trackC, trackD, trackE],
        Op.toggleShuffle (some true) (fun _ => 0)]).order ++
        [((Player.run [Op.replaceQueue [trackA, trackB, trackC, trackD, trackE],
          Op.toggleShuffle (some true) (fun _ => 0)]).queue ++ [trackF]).length - 1] ∧
    (Player.appendTrack
        (Player.run [Op.replaceQueue [trackA, trackB, trackC, trackD, trackE],
          Op.toggleShuffle (some true) (fun _ => 0)]) trackF).currentPlayingPointer =
      (Player.run [Op.replaceQueue [trackA, trackB, trackC, trackD, trackE],
        Op.toggleShuffle (some true) (fun _ => 0)]).currentPlayingPointer ∧
    (Player.appendTrack
        (Player.run [Op.replaceQueue [trackA, trackB, trackC, trackD, trackE],
          Op.toggleShuffle (some true) (fun _ => 0)]) trackF).shuffle =
      (Player.run [Op.replaceQueue [trackA, trackB, trackC, trackD, trackE],
        Op.toggleShuffle (some true) (fun _ => 0)]).shuffle ∧
    (Player.appendTrack
        (Player.run [Op.replaceQueue [trackA, trackB, trackC, trackD, trackE],
          Op.toggleShuffle (some true) (fun _ => 0)]) trackF).loop =
      (Player.run [Op.replaceQueue [trackA, trackB, trackC, trackD, trackE],
        Op.toggleShuffle (some true) (fun _ => 0)]).loop :=
  c8_appendTrack_spec _ _ (by decide)

theorem restoreOriginalOrder_currentAudio (s : Player) :
    (s.restoreOriginalOrder).currentAudio = s.currentAudio := rfl

theorem getActualQueueIndex_currentAudio (s : Player) (i : Int) :
    (s.getActualQueueIndex i).1.currentAudio = s.currentAudio := by
  unfold Player.getActualQueueIndex
  simp only []
  split
  · exact restoreOriginalOrder_currentAudio s
  · rfl

theorem scheduleNext_currentAudio (s : Player) :
    (s.scheduleNext).currentAudio = s.currentAudio := by
  unfold Player.scheduleNext
  simp only []
  repeat' split
  all_goals
    first
      | rfl
      | exact getActualQueueIndex_currentAudio s _

theorem updateNextTrackSchedule_currentAudio (s : Player) :
    (s.updateNextTrackSchedule).currentAudio = s.currentAudio := by
  unfold Player.updateNextTrackSchedule
  simp only []
  repeat' split
  all_goals
    first
      | rfl
      | exact scheduleNext_currentAudio _

/-- C7: `seekTo` fails with `false` and leaves the state unchanged without a
current handle or with an unknown (`NaN`) or non-positive duration;
otherwise it succeeds and sets the playback time to
`clamp(t, 0, duration)`.  `seekToPercentage` and `seekRelative` reduce to
`seekTo` (with the percentage clamped to `[0, 100]`) and share its failure
behaviour. -/
theorem c7_seek_spec (s : Player) (t : ℚ) :
    (s.currentAudio = none → s.seekTo t = (s, false)) ∧
    (∀ a, s.currentAudio = some a → a.duration = none → s.seekTo t = (s, false)) ∧
    (∀ a d, s.currentAudio = some a → a.duration = some d → d ≤ 0 →
      s.seekTo t = (s, false)) ∧
    (∀ a d, s.currentAudio = some a → a.duration = some d → 0 < d →
      (s.seekTo t).2 = true ∧
      ((s.seekTo t).1.currentAudio.map Audio.currentTime) = some (max 0 (min t d))) ∧
    (s.currentAudio = none → s.seekToPercentage t = (s, false)) ∧
    (∀ a, s.currentAudio = some a → a.duration = none → s.seekToPercentage t = (s, false)) ∧
    (∀ a d, s.currentAudio = some a → a.duration = some d → d ≤ 0 →
      s.seekToPercentage t = (s, false)) ∧
    (∀ a d, s.currentAudio = some a → a.duration = some d → 0 < d →
      s.seekToPercentage t = s.seekTo (max 0 (min t 100) / 100 * d)) ∧
    (s.currentAudio = none → s.seekRelative t = (s, false)) ∧
    (∀ a, s.currentAudio = some a → s.seekRelative t = s.seekTo (a.currentTime + t)) := by
  refine ⟨?_, ?_, ?_, ?_, ?_, ?_, ?_, ?_, ?_, ?_⟩
  · intro hca
    unfold Player.seekTo
    rw [hca]
  · intro a hca hd
    unfold Player.seekTo
    rw [hca]
    simp only []
    rw [hd]
  · intro a d hca hd h0
    unfold Player.seekTo
    rw [hca]
    simp only []
    rw [hd]
    simp only []
    rw [if_pos h0]
  · intro a d hca hd h0
    unfold Player.seekTo
    rw [hca]
    simp only []
    rw [hd]
    simp only []
    rw [if_neg (not_le.mpr h0)]
    simp only []
    constructor
    · trivial
    · rw [updateNextTrackSchedule_currentAudio]
      rfl
  · intro hca
    unfold Player.seekToPercentage
    rw [hca]
  · intro a hca hd
    unfold Player.seekToPercentage
    rw [hca]
    simp only []
    rw [hd]
  · intro a d hca hd h0
    unfold Player.seekToPercentage
    rw [hca]
    simp only []
    rw [hd]
    simp only []
    rw [if_pos h0]
  · intro a d hca hd h0
    unfold Player.seekToPercentage
    rw [hca]
    simp only []
    rw [hd]
    simp only []
    rw [if_neg (not_le.mpr h0)]
  · intro hca
    unfold Player.seekRelative
    rw [hca]
  · intro a hca
    unfold Player.seekRelative
    rw [hca]

theorem c7_seek_spec_witness :
    ((Player.run [Op.replaceQueue [trackA, trackB],
        Op.togglePlaying (some true) PlayOutcome.success,
        Op.metadataLoaded 200]).seekTo (-5)).2 = true ∧
    (((Player.run [Op.replaceQueue [trackA, trackB],
        Op.togglePlaying (some true) PlayOutcome.success,
        Op.metadataLoaded 200]).seekTo (-5)).1.currentAudio.map Audio.currentTime) = some 0 ∧
    (((Player.run [Op.replaceQueue [trackA, trackB],
        Op.togglePlaying (some true) PlayOutcome.success,
        Op.metadataLoaded 200]).seekTo 9999).1.currentAudio.map Audio.currentTime) =
      some 200 := by
  have h1 := (c7_seek_spec (Player.run [Op.replaceQueue [trackA, trackB],
      Op.togglePlaying (some true) PlayOutcome.success, Op.metadataLoaded 200]) (-5)).2.2.2.1
    { url := "a", currentTime := 0, duration := some 200, paused := false, volume := 1 } 200
    rfl rfl (by norm_num)
  have h2 := (c7_seek_spec (Player.run [Op.replaceQueue [trackA, trackB],
      Op.togglePlaying (some true) PlayOutcome.success, Op.metadataLoaded 200]) 9999).2.2.2.1
    { url := "a", currentTime := 0, duration := some 200, paused := false, volume := 1 } 200
    rfl rfl (by norm_num)
  refine ⟨h1.1, ?_, ?_⟩
  · rw [h1.2]
    norm_num
  · rw [h2.2]
    norm_num

theorem getActualQueueIndex_in_bounds {s : Player} {i : Int}
    (h0 : 0 ≤ i) (hi : i < (s.order.length : Int)) :
    (s.getActualQueueIndex i).1 = s ∧
    ∃ k : Nat, (s.getActualQueueIndex i).2 = (k : Int) ∧ k ∈ s.order := by
  unfold Player.getActualQueueIndex
  simp only []
  rw [if_neg (by omega)]
  obtain ⟨x, hx⟩ := listGetI_eq_some h0 hi
  refine ⟨rfl, x, ?_, listGetI_mem hx⟩
  simp [hx]

theorem member_lt_queue_length {s : Player} (hord : OrderInv s) {k : Nat}
    (hk : k ∈ s.order) : k < s.queue.length := by
  have := hord.mem_iff.mp hk
  simpa using this

theorem queue_get_some {s : Player} {k : Nat} (hk : k < s.queue.length) :
    ∃ tr, listGetI s.queue (k : Int) = some tr := by
  rw [listGetI_nonneg]
  exact ⟨s.queue[k], List.getElem?_eq_getElem hk⟩

/-- When the loop policy yields a successor, `scheduleNext` always creates a
next handle. -/
theorem scheduleNext_isSome_of_succ {s : Player} (hord : OrderInv s)
    (hna : s.nextAudio = none) (hsingle : s.loop ≠ LoopMode.single_track)
    (hp0 : 0 ≤ s.currentPlayingPointer)
    (hsucc : s.currentPlayingPointer + 1 < (s.queue.length : Int) ∨
      (s.loop = LoopMode.entire_queue ∧ 0 < s.queue.length)) :
    (s.scheduleNext).nextAudio.isSome = true := by
  have hlen := orderInv_length hord
  unfold Player.scheduleNext
  simp only []
  rw [if_neg (by simp [hna])]
  rw [if_neg hsingle]
  by_cases hend : (s.queue.length : Int) ≤ s.currentPlayingPointer + 1
  · rw [if_pos hend]
    have hentire : s.loop = LoopMode.entire_queue ∧ 0 < s.queue.length := by
      rcases hsucc with hlt | he
      · omega
      · exact he
    rw [if_pos hentire]
    obtain ⟨hst, k, hk2, hkmem⟩ :=
      getActualQueueIndex_in_bounds (s := s) (i := 0) (le_refl 0) (by omega)
    rw [hst, hk2]
    obtain ⟨tr, htr⟩ := queue_get_some (member_lt_queue_length hord hkmem)
    rw [htr]
    rfl
  · rw [if_neg hend]
    obtain ⟨hst, k, hk2, hkmem⟩ := getActualQueueIndex_in_bounds
      (s := s) (i := s.currentPlayingPointer + 1) (by omega) (by omega)
    rw [hst, hk2]
    obtain ⟨tr, htr⟩ := queue_get_some (member_lt_queue_length hord hkmem)
    rw [htr]
    rfl

/-- `scheduleNext` is the identity when a single-track loop is active. -/
theorem scheduleNext_single (s : Player) (h : s.loop = LoopMode.single_track) :
    s.scheduleNext = s := by
  unfold Player.scheduleNext
  simp only []
  split
  · rfl
  · rfl

/-- `scheduleNext` is the identity at the end of the queue with loop off. -/
theorem scheduleNext_end_off (s : Player) (hoff : s.loop = LoopMode.off)
    (hend : (s.queue.length : Int) ≤ s.currentPlayingPointer + 1) :
    s.scheduleNext = s := by
  unfold Player.scheduleNext
  simp only []
  split
  · rfl
  · rw [hoff]
    simp

/-- C6: with a playing handle of known duration and no next handle, a
`timeupdate` at time `t` schedules the next handle exactly when
`timeRemaining < 20` or `t > duration/2`, provided a loop-aware successor
exists; scheduling is a no-op when a next handle already exists, when
`loop = single_track`, or at the end of Order with loop off. -/
theorem c6_preload_policy (s : Player) (a : Audio) (d t : ℚ)
    (hca : s.currentAudio = some a) (hd : a.duration = some d)
    (hord : OrderInv s) (hp0 : 0 ≤ s.currentPlayingPointer) :
    (s.nextAudio = none → s.loop ≠ LoopMode.single_track →
      (s.currentPlayingPointer + 1 < (s.queue.length : Int) ∨
        (s.loop = LoopMode.entire_queue ∧ 0 < s.queue.length)) →
      ((s.onTimeUpdate t).nextAudio.isSome = true ↔ (d - t < 20 ∨ d / 2 < t))) ∧
    (s.nextAudio.isSome = true → (s.onTimeUpdate t).nextAudio = s.nextAudio) ∧
    (s.loop = LoopMode.single_track → (s.onTimeUpdate t).nextAudio = s.nextAudio) ∧
    (s.nextAudio = none → s.loop = LoopMode.off →
      (s.queue.length : Int) ≤ s.currentPlayingPointer + 1 →
      (s.onTimeUpdate t).nextAudio = none) := by
  refine ⟨?_, ?_, ?_, ?_⟩
  · intro hna hsingle hsucc
    unfold Player.onTimeUpdate
    rw [hca]
    simp only []
    by_cases hcond : (d - t < 20 ∨ d / 2 < t)
    · rw [if_pos ⟨hna, by simp only [shouldSchedule, hd]; simpa using hcond⟩]
      simp only [hcond, iff_true]
      exact scheduleNext_isSome_of_succ hord hna hsingle hp0 hsucc
    · rw [if_neg (fun hc => hcond (by simpa [shouldSchedule, hd] using hc.2))]
      simp only [hcond, iff_false]
      simp [hna]
  · intro hsome
    unfold Player.onTimeUpdate
    rw [hca]
    simp only []
    rw [if_neg (fun hc => by rw [hc.1] at hsome; simp at hsome)]
  · intro hsingle
    unfold Player.onTimeUpdate
    rw [hca]
    simp only []
    split
    · have hsingle2 : ({ s with currentAudio := some { a with currentTime := t } } : Player).loop = LoopMode.single_track := hsingle
      rw [scheduleNext_single _ hsingle2]
    · rfl
  · intro hna hoff hend
    unfold Player.onTimeUpdate
    rw [hca]
    simp only []
    split
    · have hoff2 : ({ s with currentAudio := some { a with currentTime := t } } : Player).loop = LoopMode.off := hoff
      have hend2 : (({ s with currentAudio := some { a with currentTime := t } } : Player).queue.length : Int) ≤ ({ s with currentAudio := some { a with currentTime := t } } : Player).currentPlayingPointer + 1 := hend
      rw [scheduleNext_end_off _ hoff2 hend2]
      exact hna
    · exact hna

theorem c6_preload_policy_witness :
    ((Player.run [Op.replaceQueue [trackA, trackB],
        Op.togglePlaying (some true) PlayOutcome.success,
        Op.metadataLoaded 100]).onTimeUpdate 51).nextAudio.isSome = true ∧
    ((Player.run [Op.replaceQueue [trackA, trackB],
        Op.togglePlaying (some true) PlayOutcome.success,
        Op.metadataLoaded 100]).onTimeUpdate 40).nextAudio.isSome = false := by
  have h51 := (c6_preload_policy (Player.run [Op.replaceQueue [trackA, trackB],
      Op.togglePlaying (some true) PlayOutcome.success, Op.metadataLoaded 100])
    { url := "a", currentTime := 0, duration := some 100, paused := false, volume := 1 }
    100 51 rfl rfl (by unfold OrderInv; decide) (by decide)).1 rfl (by decide) (by decide)
  have h40 := (c6_preload_policy (Player.run [Op.replaceQueue [trackA, trackB],
      Op.togglePlaying (some true) PlayOutcome.success, Op.metadataLoaded 100])
    { url := "a", currentTime := 0, duration := some 100, paused := false, volume := 1 }
    100 40 rfl rfl (by unfold OrderInv; decide) (by decide)).1 rfl (by decide) (by decide)
  constructor
  · exact h51.mpr (by norm_num)
  · by_contra hb
    simp only [Bool.not_eq_false] at hb
    have hx := h40.mp hb
    norm_num at hx

theorem notifyQueueChange_ne {s : Player} (h : s.order.length ≠ 0) :
    s.notifyQueueChange = s := by
  unfold Player.notifyQueueChange Player.fetchQueue
  simp only []
  rw [if_neg h]

/-- C5: on a 5-item queue with identity Order, Position 2 and active
playback, `toggleShuffle(true)` keeps `Order[0..2] = [0,1,2]` and only
permutes the suffix `{3,4}`; a following `toggleShuffle(false)` restores
Order to `[0,1,2,3,4]` with Position again 2, pointing at the same
queue item. -/
theorem c5_shuffle_roundtrip (i1 i2 i3 i4 i5 : QueueItem)
    (a : Audio) (hpaused : a.paused = false) (na : Option Audio) (lp : LoopMode)
    (rand1 rand2 : Nat → Nat) :
    (Player.toggleShuffle (c5Start i1 i2 i3 i4 i5 a na lp) (some true) rand1).order.take 3 =
      [0, 1, 2] ∧
    ((Player.toggleShuffle (c5Start i1 i2 i3 i4 i5 a na lp) (some true) rand1).order.drop 3).Perm
      [3, 4] ∧
    (Player.toggleShuffle
        (Player.toggleShuffle (c5Start i1 i2 i3 i4 i5 a na lp) (some true) rand1)
        (some false) rand2).order = [0, 1, 2, 3, 4] ∧
    (Player.toggleShuffle
        (Player.toggleShuffle (c5Start i1 i2 i3 i4 i5 a na lp) (some true) rand1)
        (some false) rand2).currentPlayingPointer = 2 := by
  have hlenfy : (fisherYates [3, 4] rand1).length = 2 := by
    have := (fisherYates_perm [3, 4] rand1).length_eq
    simpa using this
  have e1 : Player.toggleShuffle (c5Start i1 i2 i3 i4 i5 a na lp) (some true) rand1 =
      Player.notifyQueueChange (c5Shuffled i1 i2 i3 i4 i5 a na lp rand1) := rfl
  have e2 : Player.notifyQueueChange (c5Shuffled i1 i2 i3 i4 i5 a na lp rand1) =
      c5Shuffled i1 i2 i3 i4 i5 a na lp rand1 :=
    notifyQueueChange_ne (by simp [c5Shuffled, hlenfy])
  rw [e1, e2]
  refine ⟨?_, ?_, ?_, ?_⟩
  · show (([0, 1, 2] ++ fisherYates [3, 4] rand1).take 3) = [0, 1, 2]
    have h3 : ([0, 1, 2] : List Nat).length = 3 := rfl
    rw [← h3, List.take_left]
  · show ((([0, 1, 2] ++ fisherYates [3, 4] rand1).drop 3)).Perm [3, 4]
    have h3 : ([0, 1, 2] : List Nat).length = 3 := rfl
    rw [← h3, List.drop_left]
    exact fisherYates_perm [3, 4] rand1
  · unfold Player.toggleShuffle
    simp only [Option.getD]
    rw [if_neg (by simp [c5Shuffled])]
    rw [if_neg (by simp)]
    simp only [c5Shuffled]
    unfold Player.restoreOriginalOrder
    simp only [listGetI, hpaused, Bool.not_false, Bool.or_true]
    rw [notifyQueueChange_ne (by simp)]
    rfl
  · unfold Player.toggleShuffle
    simp only [Option.getD]
    rw [if_neg (by simp [c5Shuffled])]
    rw [if_neg (by simp)]
    simp only [c5Shuffled]
    unfold Player.restoreOriginalOrder
    simp only [listGetI, hpaused, Bool.not_false, Bool.or_true]
    rw [notifyQueueChange_ne (by simp)]
    have hel : (([0, 1, 2] : List Nat) ++ fisherYates [3, 4] rand1)[Int.toNat 2]? = some 2 := by
      rw [List.getElem?_append_left (by norm_num)]
      rfl
    have hidx : (List.range 5).indexOf 2 = 2 := by decide
    simp [hel, hidx, List.length_cons]

theorem c5_shuffle_roundtrip_witness :
    (Player.toggleShuffle (c5Start trackA trackB trackC trackD trackE
        { url := "c", currentTime := 0, duration := none, paused := false, volume := 1 }
        none LoopMode.off) (some true) (fun _ => 0)).order.take 3 = [0, 1, 2] ∧
    ((Player.toggleShuffle (c5Start trackA trackB trackC trackD trackE
        { url := "c", currentTime := 0, duration := none, paused := false, volume := 1 }
        none LoopMode.off) (some true) (fun _ => 0)).order.drop 3).Perm [3, 4] ∧
    (Player.toggleShuffle
        (Player.toggleShuffle (c5Start trackA trackB trackC trackD trackE
          { url := "c", currentTime := 0, duration := none, paused := false, volume := 1 }
          none LoopMode.off) (some true) (fun _ => 0))
        (some false) (fun _ => 0)).order = [0, 1, 2, 3, 4] ∧
    (Player.toggleShuffle
        (Player.toggleShuffle (c5Start trackA trackB trackC trackD trackE
          { url := "c", currentTime := 0, duration := none, paused := false, volume := 1 }
          none LoopMode.off) (some true) (fun _ => 0))
        (some false) (fun _ => 0)).currentPlayingPointer = 2 :=
  c5_shuffle_roundtrip trackA trackB trackC trackD trackE
    { url := "c", currentTime := 0, duration := none, paused := false, volume := 1 }
    rfl none LoopMode.off (fun _ => 0) (fun _ => 0)

/-! ### C4 and C10: a blocked play during togglePlaying -/

theorem getActualQueueIndex_no_restore (s : Player) (i : Int)
    (h : s.order.length ≠ 0) :
    s.getActualQueueIndex i =
      (s, match listGetI s.order i with
          | some v => (v : Int)
          | none => i) := by
  unfold Player.getActualQueueIndex
  simp only []
  rw [if_neg h]

theorem getCurrentTrack_no_restore (s : Player)
    (h : s.order.length ≠ 0) :
    s.getCurrentTrack =
      (s, listGetI s.queue
        (match listGetI s.order s.currentPlayingPointer with
         | some v => (v : Int)
         | none => s.currentPlayingPointer)) := by
  unfold Player.getCurrentTrack
  simp only []
  rw [getActualQueueIndex_no_restore s _ h]

/-- Shared description of a blocked `play()` during a fresh (non-resume)
`togglePlaying(true)`: the flag is reverted, listeners hear `true` then
`false`, and the error is swallowed. -/
theorem togglePlaying_blocked_fresh (s : Player) (track : QueueItem)
    (hplay : s.isPlaying = false) (hca : s.currentAudio = none)
    (hord : s.order.length ≠ 0)
    (htrack : (s.getCurrentTrack).2 = some track) :
    s.togglePlaying (some true) PlayOutcome.blocked =
      ({ s with isPlaying := false, currentAudio := some (newAudio track.url) },
       [true, false], Except.ok ()) := by
  have hprim : listGetI s.queue
      (match listGetI s.order s.currentPlayingPointer with
       | some v => (v : Int)
       | none => s.currentPlayingPointer) = some track := by
    rw [getCurrentTrack_no_restore s hord] at htrack
    exact htrack
  unfold Player.togglePlaying
  simp only [Option.getD]
  rw [if_neg (by simp [hplay])]
  rw [if_pos trivial]
  unfold Player.reportMetadata
  rw [getCurrentTrack_no_restore ({ s with isPlaying := true }) hord]
  simp only []
  unfold Player.startPlay
  rw [getCurrentTrack_no_restore ({ s with isPlaying := true }) hord]
  simp only [hca, hprim]
  unfold Player.tryPlayCurrent
  rfl

/-- C4 (counterexample): from the single-track queue `[a]` with nothing
playing, a `togglePlaying(true)` whose backend `play()` is blocked still
resolves successfully — the rejection is caught inside `togglePlaying`
and never reaches the caller, even though the flag was reverted and the
listeners were told `false`. -/
theorem c4_counterexample :
    ((Player.run [Op.replaceQueue [trackA]]).togglePlaying
        (some true) PlayOutcome.blocked).2.2 = Except.ok () ∧
    ((Player.run [Op.replaceQueue [trackA]]).togglePlaying
        (some true) PlayOutcome.blocked).1.isPlaying = false := ⟨rfl, rfl⟩

/-- C4: when `togglePlaying(true)` starts playback from scratch (no current
handle) and the backend blocks the play request, `isPlaying` is reverted
to `false` and play-state subscribers are notified with `false` — but the
failure does not propagate: `togglePlaying` returns successfully because
its `try/catch` swallows the rejection. -/
theorem c4_blocked_play_handling (s : Player) (track : QueueItem)
    (hplay : s.isPlaying = false) (hca : s.currentAudio = none)
    (hord : s.order.length ≠ 0)
    (htrack : (s.getCurrentTrack).2 = some track) :
    ((s.togglePlaying (some true) PlayOutcome.blocked).1).isPlaying = false ∧
    (s.togglePlaying (some true) PlayOutcome.blocked).2.1 = [true, false] ∧
    (s.togglePlaying (some true) PlayOutcome.blocked).2.2 = Except.ok () := by
  rw [togglePlaying_blocked_fresh s track hplay hca hord htrack]
  exact ⟨rfl, rfl, rfl⟩

theorem c4_blocked_play_handling_witness :
    ((Player.run [Op.replaceQueue [trackB]]).togglePlaying
        (some true) PlayOutcome.blocked).1.isPlaying = false ∧
    ((Player.run [Op.replaceQueue [trackB]]).togglePlaying
        (some true) PlayOutcome.blocked).2.1 = [true, false] ∧
    ((Player.run [Op.replaceQueue [trackB]]).togglePlaying
        (some true) PlayOutcome.blocked).2.2 = Except.ok () :=
  c4_blocked_play_handling (Player.run [Op.replaceQueue [trackB]]) trackB
    rfl rfl (by decide) rfl

/-- C10 (counterexample): with a paused current handle present (play, then
pause, so `isPlaying = false`), a blocked `togglePlaying(true)` takes the
resume path: listeners receive only `[true]` — no second `false`
notification — and `getPlayingState()` is `true` afterwards. -/
theorem c10_counterexample :
    ((Player.run [Op.replaceQueue [trackA], Op.togglePlaying (some true)
        PlayOutcome.success, Op.togglePlaying (some false) PlayOutcome.success]).togglePlaying
        (some true) PlayOutcome.blocked).2.1 = [true] ∧
    ((Player.run [Op.replaceQueue [trackA], Op.togglePlaying (some true)
        PlayOutcome.success, Op.togglePlaying (some false) PlayOutcome.success]).togglePlaying
        (some true) PlayOutcome.blocked).1.getPlayingState = true ∧
    (Player.run [Op.replaceQueue [trackA], Op.togglePlaying (some true)
        PlayOutcome.success, Op.togglePlaying (some false) PlayOutcome.success]).isPlaying
      = false := ⟨rfl, rfl, rfl⟩

/-- C10: when `togglePlaying(true)` is called while not playing and with no
current handle, and the backend rejects the play request with an
autoplay-policy error, play-state subscribers receive exactly the two
notifications `true` then `false` during that call, and
`getPlayingState()` returns `false` afterwards. -/
theorem c10_blocked_notifications (s : Player) (track : QueueItem)
    (hplay : s.getPlayingState = false) (hca : s.currentAudio = none)
    (hord : s.order.length ≠ 0)
    (htrack : (s.getCurrentTrack).2 = some track) :
    (s.togglePlaying (some true) PlayOutcome.blocked).2.1 = [true, false] ∧
    ((s.togglePlaying (some true) PlayOutcome.blocked).1).getPlayingState = false := by
  rw [togglePlaying_blocked_fresh s track hplay hca hord htrack]
  exact ⟨rfl, rfl⟩

theorem c10_blocked_notifications_witness :
    ((Player.run [Op.appendTrack trackA]).togglePlaying
        (some true) PlayOutcome.blocked).2.1 = [true, false] ∧
    ((Player.run [Op.appendTrack trackA]).togglePlaying
        (some true) PlayOutcome.blocked).1.getPlayingState = false :=
  c10_blocked_notifications (Player.run [Op.appendTrack trackA]) trackA
    rfl rfl (by decide) rfl
